import Mathlib

/-!
Verification of the WrenJIT tracing JIT compiler core against its
natural-language specification.

This file is a shallow embedding of the relevant parts of the C source:

* the SSA IR data model (wren_jit_ir.h / wren_jit_ir.c),
* the optimizer passes and pipeline (wren_jit_opt.c),
* the trace recorder (wren_jit_trace.c) and the monomorphic range-iteration
  inliner (wren_jit_trace_widen.c),
* the linear-scan register allocator (wren_jit_regalloc.c),
* fragments of the code generator (wren_jit_codegen.c): the lowering of
  arithmetic nodes, the side-exit stubs, and the snapshot-table copy,
* the trace cache (wren_jit.c) and the deoptimizer (wrenJitRestoreExit).

C fixed-size arrays are modelled as lists, machine integers as Nat / Int,
C doubles as rationals (only orderings and small integer constants of the
source matter here), and C pointers as natural numbers (0 plays NULL).
Enumerations and structs keep the names of the source where Lean allows it.
-/

/-! ## IR data model (wren_jit_ir.h) -/

/-- Sentinel for a missing operand, 0xFFFF in the source. -/
def IR_NONE : Nat := 0xFFFF

/-- IR buffer limits from wren_jit_ir.h. -/
def IR_MAX_NODES : Nat := 4096

/-- Maximum snapshots per IR buffer, from wren_jit_ir.h. -/
def IR_MAX_SNAPSHOTS : Nat := 256

/-- IR opcodes, from the IROp enum in wren_jit_ir.h. -/
inductive IROp where
  | nop
  | const_num
  | const_bool
  | const_null
  | const_obj
  | const_int
  | add
  | sub
  | mul
  | div
  | mod
  | neg
  | lt
  | gt
  | lte
  | gte
  | eq
  | neq
  | band
  | bor
  | bxor
  | bnot
  | lshift
  | rshift
  | load_stack
  | store_stack
  | load_field
  | store_field
  | load_module_var
  | store_module_var
  | box_num
  | unbox_num
  | box_obj
  | unbox_obj
  | box_bool
  | unbox_int
  | box_int
  | guard_num
  | guard_class
  | guard_true
  | guard_false
  | guard_not_null
  | phi
  | loop_header
  | loop_back
  | side_exit
  | snapshot
  | call_c
  | call_wren
  deriving DecidableEq, Repr

/-- IR result types, from the IRType enum in wren_jit_ir.h. -/
inductive IRType where
  | void
  | num
  | bool
  | value
  | ptr
  | int
  deriving DecidableEq, Repr

/-- The immediate payload union of an IR node.  The C source stores one of
these alternatives per opcode and reads back the member it wrote; the union
is modelled as a sum.  Doubles are modelled as rationals. -/
inductive Imm where
  | num (q : Rat)
  | intval (i : Int)
  | i64 (i : Int)
  | ptr (p : Nat)
  | snapshot_id (s : Nat)
  | mem (slot field : Nat)
  deriving DecidableEq, Repr

/-- Read the num member of the union (0 where another member was written;
a memset-to-zero union reads as 0.0 through the num member as well). -/
def Imm.getNum : Imm → Rat
  | .num q => q
  | _ => 0

/-- Read the mem.slot member of the union. -/
def Imm.getSlot : Imm → Nat
  | .mem s _ => s
  | _ => 0

/-- Read the mem.field member of the union. -/
def Imm.getField : Imm → Nat
  | .mem _ f => f
  | _ => 0

/-- Read the snapshot id member of the union. -/
def Imm.getSnapId : Imm → Nat
  | .snapshot_id s => s
  | _ => 0

/-- Read the pointer member of the union. -/
def Imm.getPtr : Imm → Nat
  | .ptr p => p
  | _ => 0

/-- Read the intval member of the union. -/
def Imm.getIntval : Imm → Int
  | .intval i => i
  | _ => 0

/-- The flags bitfield of an IR node, one Bool per bit of the source
(IR_FLAG_DEAD, IR_FLAG_INVARIANT, IR_FLAG_HOISTED, IR_FLAG_GUARD). -/
structure IRFlags where
  dead : Bool := false
  invariant : Bool := false
  hoisted : Bool := false
  guard : Bool := false
  deriving DecidableEq, Repr

/-- A single IR node in SSA form, from wren_jit_ir.h. -/
structure IRNode where
  op : IROp := .nop
  id : Nat := 0
  op1 : Nat := IR_NONE
  op2 : Nat := IR_NONE
  type : IRType := .void
  imm : Imm := .mem 0 0
  flags : IRFlags := {}
  deriving DecidableEq, Repr

/-- A snapshot entry: interpreter stack slot paired with the SSA value that
holds its content, from wren_jit_ir.h. -/
structure IRSnapshotEntry where
  slot : Nat
  ssa_ref : Nat
  deriving DecidableEq, Repr

/-- A deoptimization snapshot in the IR buffer, from wren_jit_ir.h.
resume_pc is a bytecode address, modelled as Nat. -/
structure IRSnapshot where
  resume_pc : Nat := 0
  num_entries : Nat := 0
  entry_start : Nat := 0
  stack_depth : Nat := 0
  deriving DecidableEq, Repr

/-- The IR buffer of one trace.  The fixed-size arrays of the source are
lists; count, snapshot_count and snapshot_entry_count are the lengths. -/
structure IRBuffer where
  nodes : List IRNode := []
  snapshots : List IRSnapshot := []
  snapshot_entries : List IRSnapshotEntry := []
  loop_header : Nat := 0
  deriving DecidableEq, Repr

/-- Number of nodes in the buffer (the count field of the source). -/
def IRBuffer.count (buf : IRBuffer) : Nat := buf.nodes.length

/-- Number of snapshots (the snapshot_count field). -/
def IRBuffer.snapshot_count (buf : IRBuffer) : Nat := buf.snapshots.length

/-- Number of pooled snapshot entries (the snapshot_entry_count field). -/
def IRBuffer.snapshot_entry_count (buf : IRBuffer) : Nat :=
  buf.snapshot_entries.length

/-- Default node used for out-of-bounds reads (the source always guards
indices by count before reading). -/
def nopNode : IRNode := {}

/-- Read node i of the buffer. -/
def IRBuffer.node (buf : IRBuffer) (i : Nat) : IRNode :=
  buf.nodes.getD i nopNode

/-! ## IR construction (wren_jit_ir.c) -/

/-- irEmit: append a node; its SSA id is the current count.  The source
asserts count < IR_MAX_NODES; every development below stays within that
bound. -/
def irEmit (buf : IRBuffer) (op : IROp) (op1 op2 : Nat) (type : IRType) :
    IRBuffer :=
  let id := buf.count
  { buf with nodes := buf.nodes ++ [{ op := op, id := id, op1 := op1,
                                      op2 := op2, type := type }] }

/-- Helper on nodes: replace the immediate. -/
def IRNode.withImm (n : IRNode) (imm : Imm) : IRNode := { n with imm := imm }

/-- Helper on nodes: set the guard flag. -/
def IRNode.withGuardFlag (n : IRNode) : IRNode :=
  { n with flags := { n.flags with guard := true } }

/-- Set the immediate of the last emitted node (the source writes
buf->nodes[id].imm after irEmit returns id). -/
def irSetImmLast (buf : IRBuffer) (imm : Imm) : IRBuffer :=
  let last := buf.nodes.length - 1
  let n := (buf.nodes.getD last nopNode).withImm imm
  { buf with nodes := buf.nodes.set last n }

/-- Set the guard flag of the last emitted node. -/
def irSetGuardFlagLast (buf : IRBuffer) : IRBuffer :=
  let last := buf.nodes.length - 1
  let n := (buf.nodes.getD last nopNode).withGuardFlag
  { buf with nodes := buf.nodes.set last n }

/-- irEmitConst: a numeric constant. -/
def irEmitConst (buf : IRBuffer) (num : Rat) : Nat × IRBuffer :=
  (buf.count, irSetImmLast (irEmit buf .const_num IR_NONE IR_NONE .num)
      (.num num))

/-- irEmitConstBool. -/
def irEmitConstBool (buf : IRBuffer) (val : Bool) : Nat × IRBuffer :=
  (buf.count, irSetImmLast (irEmit buf .const_bool IR_NONE IR_NONE .bool)
      (.intval (if val then 1 else 0)))

/-- irEmitConstNull. -/
def irEmitConstNull (buf : IRBuffer) : Nat × IRBuffer :=
  (buf.count, irEmit buf .const_null IR_NONE IR_NONE .value)

/-- irEmitLoad: LOAD_STACK with the slot in the immediate. -/
def irEmitLoad (buf : IRBuffer) (slot : Nat) : Nat × IRBuffer :=
  (buf.count, irSetImmLast (irEmit buf .load_stack IR_NONE IR_NONE .value)
      (.mem slot 0))

/-- irEmitStore: STORE_STACK of val into slot. -/
def irEmitStore (buf : IRBuffer) (slot val : Nat) : Nat × IRBuffer :=
  (buf.count, irSetImmLast (irEmit buf .store_stack val IR_NONE .void)
      (.mem slot 0))

/-- irEmitGuardNum. -/
def irEmitGuardNum (buf : IRBuffer) (val snapshot : Nat) : Nat × IRBuffer :=
  (buf.count, irSetGuardFlagLast (irSetImmLast
      (irEmit buf .guard_num val IR_NONE .void) (.snapshot_id snapshot)))

/-- irEmitGuardClass: the class pointer goes to the immediate and the
snapshot id to op2. -/
def irEmitGuardClass (buf : IRBuffer) (val classPtr snapshot : Nat) :
    Nat × IRBuffer :=
  (buf.count, irSetGuardFlagLast (irSetImmLast
      (irEmit buf .guard_class val snapshot .void) (.ptr classPtr)))

/-- irEmitGuardTrue. -/
def irEmitGuardTrue (buf : IRBuffer) (val snapshot : Nat) : Nat × IRBuffer :=
  (buf.count, irSetGuardFlagLast (irSetImmLast
      (irEmit buf .guard_true val IR_NONE .void) (.snapshot_id snapshot)))

/-- irEmitGuardFalse. -/
def irEmitGuardFalse (buf : IRBuffer) (val snapshot : Nat) : Nat × IRBuffer :=
  (buf.count, irSetGuardFlagLast (irSetImmLast
      (irEmit buf .guard_false val IR_NONE .void) (.snapshot_id snapshot)))

/-- irEmitBox: BOX_NUM. -/
def irEmitBox (buf : IRBuffer) (val : Nat) : Nat × IRBuffer :=
  (buf.count, irEmit buf .box_num val IR_NONE .value)

/-- irEmitUnbox: UNBOX_NUM. -/
def irEmitUnbox (buf : IRBuffer) (val : Nat) : Nat × IRBuffer :=
  (buf.count, irEmit buf .unbox_num val IR_NONE .num)

/-- irEmitSnapshot: appends a snapshot record and a SNAPSHOT node;
returns the snapshot id. -/
def irEmitSnapshot (buf : IRBuffer) (resume_pc : Nat) (stack_depth : Nat) :
    Nat × IRBuffer :=
  let snap_id := buf.snapshot_count
  let buf := { buf with snapshots := buf.snapshots ++
      [{ resume_pc := resume_pc, num_entries := 0,
         entry_start := buf.snapshot_entry_count,
         stack_depth := stack_depth }] }
  (snap_id, irSetImmLast (irEmit buf .snapshot IR_NONE IR_NONE .void)
      (.snapshot_id snap_id))

/-- irSnapshotAddEntry: appends to the shared entry pool and bumps the
num_entries of the snapshot (unchecked in the IR-side source). -/
def irSnapshotAddEntry (buf : IRBuffer) (snapshot_id slot ssa_ref : Nat) :
    IRBuffer :=
  { buf with
    snapshot_entries := buf.snapshot_entries ++
        [{ slot := slot, ssa_ref := ssa_ref }],
    snapshots := buf.snapshots.set snapshot_id
        (let s := buf.snapshots.getD snapshot_id {}
         { s with num_entries := s.num_entries + 1 }) }

/-- irEmitLoopHeader: emits the marker and records its index in the
loop_header field of the buffer. -/
def irEmitLoopHeader (buf : IRBuffer) : Nat × IRBuffer :=
  let id := buf.count
  (id, { irEmit buf .loop_header IR_NONE IR_NONE .void with loop_header := id })

/-- irEmitLoopBack: op1 is the loop header index. -/
def irEmitLoopBack (buf : IRBuffer) : Nat × IRBuffer :=
  (buf.count, irEmit buf .loop_back buf.loop_header IR_NONE .void)

/-! ## Optimizer helpers (wren_jit_opt.c) -/

/-- The half-open index range [a, b), used for the loops of the source. -/
def natRange (a b : Nat) : List Nat := (List.range (b - a)).map fun k => a + k

/-- Replace node i of the buffer. -/
def IRBuffer.setNode (buf : IRBuffer) (i : Nat) (n : IRNode) : IRBuffer :=
  { buf with nodes := buf.nodes.set i n }

/-- isArith from wren_jit_opt.c. -/
def isArith (op : IROp) : Bool :=
  op = .add || op = .sub || op = .mul || op = .div || op = .mod

/-- isCmp from wren_jit_opt.c. -/
def isCmp (op : IROp) : Bool :=
  op = .lt || op = .lte || op = .gt || op = .gte || op = .eq || op = .neq

/-- isGuard from wren_jit_opt.c. -/
def isGuard (op : IROp) : Bool :=
  op = .guard_num || op = .guard_class || op = .guard_true ||
  op = .guard_false || op = .guard_not_null

/-- isConst from wren_jit_opt.c. -/
def isConst (op : IROp) : Bool :=
  op = .const_num || op = .const_bool || op = .const_null ||
  op = .const_obj || op = .const_int

/-- hasSideEffect from wren_jit_opt.c: stores, guards, side exits,
snapshots, calls and the loop boundary markers. -/
def hasSideEffect (n : IRNode) : Bool :=
  match n.op with
  | .store_stack | .store_field | .store_module_var
  | .guard_num | .guard_class | .guard_true | .guard_false | .guard_not_null
  | .side_exit | .snapshot | .call_c | .call_wren
  | .loop_header | .loop_back => true
  | _ => false

/-- killNode: turn a node into a NOP, zero the immediate (memset in the
source) and set the dead flag (OR-ed onto the existing flags). -/
def killNode (n : IRNode) : IRNode :=
  { n with op := .nop, op1 := IR_NONE, op2 := IR_NONE, imm := .mem 0 0,
           flags := { n.flags with dead := true } }

/-- replaceUses: rewrite every use of SSA id old to rep, in the node
operands (skipping NOP nodes) and in the snapshot entry pool. -/
def replaceUses (buf : IRBuffer) (old rep : Nat) : IRBuffer :=
  { buf with
    nodes := buf.nodes.map fun n =>
      if n.op = .nop then n
      else { n with op1 := if n.op1 = old then rep else n.op1,
                    op2 := if n.op2 = old then rep else n.op2 },
    snapshot_entries := buf.snapshot_entries.map fun e =>
      if e.ssa_ref = old then { e with ssa_ref := rep } else e }

/-- findLoopHeader: the cached loop_header index when valid, otherwise a
scan; IR_NONE when absent. -/
def findLoopHeader (buf : IRBuffer) : Nat :=
  if buf.loop_header < buf.count ∧
     (buf.node buf.loop_header).op = .loop_header then buf.loop_header
  else
    match (natRange 0 buf.count).find?
        (fun i => (buf.node i).op = .loop_header) with
    | some i => i
    | none => IR_NONE

/-- findLoopBack: index of IR_LOOP_BACK, IR_NONE when absent. -/
def findLoopBack (buf : IRBuffer) : Nat :=
  match (natRange 0 buf.count).find?
      (fun i => (buf.node i).op = .loop_back) with
  | some i => i
  | none => IR_NONE

/-! ## Pass 5: loop-invariant code motion (irOptLICM, wren_jit_opt.c)

The pass marks nodes between the loop header and the loop back as invariant
when each operand is defined before the header, is a constant, or is already
invariant (iterated to a fixed point), then moves invariant nodes into empty
NOP slots before the header.  The source has no aliasing test of any kind:
a LOAD_STACK has no SSA operands (its slot lives in the immediate), so it is
always judged invariant. -/

/-- One operand of a candidate node keeps it invariant unless the operand is
a valid id at or after the header that is neither invariant nor constant. -/
def licmOperandOk (buf : IRBuffer) (header opnd : Nat) : Bool :=
  if opnd ≠ IR_NONE && opnd < buf.count then
    if header ≤ opnd then
      let o := buf.node opnd
      o.flags.invariant || isConst o.op
    else true
  else true

/-- One marking sweep over the loop body; returns the updated buffer and
whether any new node was marked invariant. -/
def licmSweep (header back : Nat) (buf : IRBuffer) : IRBuffer × Bool :=
  (natRange (header + 1) back).foldl
    (fun (acc : IRBuffer × Bool) i =>
      let (buf, changed) := acc
      let n := buf.node i
      if n.op = .nop || hasSideEffect n then (buf, changed)
      else if n.op = .phi then (buf, changed)
      else if n.flags.invariant then (buf, changed)
      else if licmOperandOk buf header n.op1 &&
              licmOperandOk buf header n.op2 then
        (buf.setNode i { n with flags := { n.flags with invariant := true } },
         true)
      else (buf, changed))
    (buf, false)

/-- The fixed-point loop of the marking phase.  The source iterates while a
sweep changed something; each changing sweep marks at least one more node
invariant, so count + 1 sweeps always reach the fixed point and the fuel
never runs out on a buffer the source terminates on. -/
def licmFix (header back : Nat) : Nat → IRBuffer → IRBuffer
  | 0, buf => buf
  | fuel + 1, buf =>
    let (buf2, changed) := licmSweep header back buf
    if changed then licmFix header back fuel buf2 else buf2

/-- The move phase for one body index: an invariant, not yet hoisted node is
copied into the first NOP slot before the header, its uses are rewritten to
the new position, and the original is killed. -/
def licmMoveStep (header : Nat) (buf : IRBuffer) (i : Nat) : IRBuffer :=
  let n := buf.node i
  if !n.flags.invariant then buf
  else if n.flags.hoisted then buf
  else
    match (natRange 0 header).find? (fun j => (buf.node j).op = .nop) with
    | none => buf
    | some j =>
      let moved := { n with id := j,
                            flags := { n.flags with hoisted := true } }
      let buf := buf.setNode j moved
      let buf := replaceUses buf i j
      buf.setNode i (killNode (buf.node i))

/-- irOptLICM from wren_jit_opt.c. -/
def irOptLICM (buf : IRBuffer) : IRBuffer :=
  let header := findLoopHeader buf
  if header = IR_NONE then buf
  else
    let back := findLoopBack buf
    if back = IR_NONE then buf
    else
      let buf := licmFix header back (buf.count + 1) buf
      (natRange (header + 1) back).foldl (licmMoveStep header) buf

/-! ## The optimizer pipeline (irOptimize, wren_jit_opt.c) -/

/-- Names of the optimizer passes of the repository.  The first twelve are
the functions wren_jit_opt.h exposes; promoteLoopVars is the pass the header
documents as mandatory pass 0 (irOptPromoteLoopVars). -/
inductive OptPass where
  | promoteLoopVars
  | boxUnboxElim
  | redundantGuardElim
  | constPropFold
  | gvn
  | licm
  | guardHoist
  | strengthReduce
  | boundsCheckElim
  | escapeAnalysis
  | dce
  | guardElim
  | ivTypeInference
  deriving DecidableEq, Repr

/-- The pass call sequence of irOptimize, transcribed call for call from the
body of irOptimize in wren_jit_opt.c (irOptBoxUnboxElim first, then the
remaining passes, with irOptDCE run again at the end). -/
def irOptimizePasses : List OptPass :=
  [.boxUnboxElim, .redundantGuardElim, .constPropFold, .gvn, .licm,
   .guardHoist, .strengthReduce, .boundsCheckElim, .escapeAnalysis, .dce,
   .guardElim, .ivTypeInference, .dce]

/-! ## Pass 4: GVN table geometry (irOptGVN, wren_jit_opt.c) -/

/-- GVN_TABLE_SIZE from wren_jit_opt.c. -/
def GVN_TABLE_SIZE : Nat := 2048

/-- GVN_TABLE_MASK from wren_jit_opt.c. -/
def GVN_TABLE_MASK : Nat := GVN_TABLE_SIZE - 1

/-- The probe-index computation of the open-addressing loop of irOptGVN:
idx = (h + probe) & GVN_TABLE_MASK. -/
def gvnProbeIdx (h probe : Nat) : Nat := (h + probe) &&& GVN_TABLE_MASK

/-! ## A concrete aliasing scenario for LICM

A minimal buffer in the shape the recorder produces: one reserved pre-header
NOP slot, the loop header, then a loop body that loads interpreter stack
slot 0 and stores back to the same slot, and the loop back.  The store makes
the load loop-variant in the sense of the specification. -/

/-- Buffer [NOP; LOOP_HEADER; LOAD_STACK slot 0; STORE_STACK slot 0;
LOOP_BACK], built with the IR emitters. -/
def licmAliasExample : IRBuffer :=
  let buf : IRBuffer := {}
  let buf := irEmit buf .nop IR_NONE IR_NONE .void
  let (_, buf) := irEmitLoopHeader buf
  let (ld, buf) := irEmitLoad buf 0
  let (_, buf) := irEmitStore buf 0 ld
  let (_, buf) := irEmitLoopBack buf
  buf

/-! ## Compiled-trace snapshots (wren_jit_snapshot.h / wren_jit_snapshot.c) -/

/-- JIT_MAX_SNAPSHOT_ENTRIES from wren_jit_snapshot.h. -/
def JIT_MAX_SNAPSHOT_ENTRIES : Nat := 64

/-- A snapshot entry of a compiled trace, from wren_jit_snapshot.h. -/
structure JitSnapshotEntry where
  stack_slot : Nat
  ssa_ref : Nat
  deriving DecidableEq, Repr

/-- A deoptimization snapshot of a compiled trace.  The fixed 64-entry array
plus num_entries of the source is a list whose length is num_entries; the
JIT_MAX_SNAPSHOT_ENTRIES bound is enforced by jitSnapshotAddEntry. -/
structure JitSnapshot where
  resume_pc : Nat := 0
  stack_depth : Nat := 0
  entries : List JitSnapshotEntry := []
  deriving DecidableEq, Repr

/-- jitSnapshotInit from wren_jit_snapshot.c. -/
def jitSnapshotInit (resume_pc stack_depth : Nat) : JitSnapshot :=
  { resume_pc := resume_pc, stack_depth := stack_depth, entries := [] }

/-- jitSnapshotAddEntry from wren_jit_snapshot.c: refuses (returns false,
snapshot unchanged) once num_entries has reached the 64-entry cap. -/
def jitSnapshotAddEntry (snap : JitSnapshot) (slot ssa_ref : Nat) :
    Bool × JitSnapshot :=
  if JIT_MAX_SNAPSHOT_ENTRIES ≤ snap.entries.length then (false, snap)
  else (true, { snap with entries := snap.entries ++
                  [{ stack_slot := slot, ssa_ref := ssa_ref }] })

/-! ## The snapshot-table copy of the code generator (wrenJitCodegen)

wrenJitCodegen copies each IR snapshot into the compiled trace: it walks the
entries of the shared pool, stops when an index leaves the pool, and calls
jitSnapshotAddEntry on each entry, ignoring the boolean result. -/

/-- Conversion of a pooled IR entry to a compiled-trace entry (the two
fields the copy loop passes to jitSnapshotAddEntry). -/
def toJitEntry (e : IRSnapshotEntry) : JitSnapshotEntry :=
  { stack_slot := e.slot, ssa_ref := e.ssa_ref }

/-- The entry-copy loop of wrenJitCodegen for one snapshot: e counts from 0
below num_entries (modelled by the remaining count), the loop breaks when
entry_start + e reaches the pool length, and each call result is ignored. -/
def codegenCopyEntries (ir : IRBuffer) (entry_start : Nat) :
    Nat → Nat → JitSnapshot → JitSnapshot
  | _, 0, js => js
  | e, remaining + 1, js =>
    let entryIdx := entry_start + e
    if ir.snapshot_entry_count ≤ entryIdx then js
    else
      let ent := ir.snapshot_entries.getD entryIdx { slot := 0, ssa_ref := 0 }
      let js := (jitSnapshotAddEntry js ent.slot ent.ssa_ref).2
      codegenCopyEntries ir entry_start (e + 1) remaining js

/-- The per-snapshot copy of wrenJitCodegen (jitSnapshotInit followed by the
entry loop). -/
def codegenCopySnapshot (ir : IRBuffer) (irSnap : IRSnapshot) : JitSnapshot :=
  codegenCopyEntries ir irSnap.entry_start 0 irSnap.num_entries
    (jitSnapshotInit irSnap.resume_pc irSnap.stack_depth)

/-- The deoptimization table of a compiled trace: one copied snapshot per IR
snapshot, in order. -/
def codegenCopySnapshots (ir : IRBuffer) : List JitSnapshot :=
  ir.snapshots.map (codegenCopySnapshot ir)

/-- An IR buffer whose single snapshot recorded 70 live-slot entries,
exercising the copy loop past the 64-entry cap. -/
def c10ExampleIR : IRBuffer :=
  { nodes := [],
    snapshots := [{ resume_pc := 7, num_entries := 70, entry_start := 0,
                    stack_depth := 70 }],
    snapshot_entries := (List.range 70).map fun k =>
      { slot := k, ssa_ref := k + 100 },
    loop_header := 0 }

/-- The single snapshot of c10ExampleIR. -/
def c10ExampleSnap : IRSnapshot :=
  { resume_pc := 7, num_entries := 70, entry_start := 0, stack_depth := 70 }

/-! ## Trace recorder (wren_jit_trace.h / wren_jit_trace.c)

The recorder is modelled for the subset of the bytecode dispatch that does
not inspect runtime stack values: the fixed and one-byte local loads,
local stores, the NULL/TRUE/FALSE pushes, POP, unconditional forward jumps,
the backward LOOP branch, RETURN, the CALL_2..CALL_16 group, the upvalue
opcodes, and the default case.  The instruction-count check of
jitRecorderStep precedes the dispatch and is identical for every opcode. -/

/-- JIT_TRACE_MAX_INSNS from wren_jit_trace.h. -/
def JIT_TRACE_MAX_INSNS : Nat := 1000

/-- JIT_TRACE_MAX_CALL_DEPTH from wren_jit_trace.h. -/
def JIT_TRACE_MAX_CALL_DEPTH : Nat := 8

/-- JIT_TRACE_MAX_SLOTS from wren_jit_trace.h. -/
def JIT_TRACE_MAX_SLOTS : Nat := 256

/-- JIT_HOT_THRESHOLD from wren_jit.h. -/
def JIT_HOT_THRESHOLD : Nat := 50

/-- JIT_MAX_TRACES from wren_jit.h. -/
def JIT_MAX_TRACES : Nat := 1024

/-- The recording state machine of the JIT, from wren_jit.h. -/
inductive JitRecordState where
  | idle
  | recording
  | compiling
  deriving DecidableEq, Repr

/-- A compiled trace, from wren_jit.h.  The code pointer is a Nat handle
(0 plays NULL); the owned snapshot table and GC-root array are carried as
lists. -/
structure JitTrace where
  anchor_pc : Nat := 0
  code : Nat := 0
  code_size : Nat := 0
  snapshots : List JitSnapshot := []
  num_snapshots : Nat := 0
  gc_roots : List Nat := []
  num_gc_roots : Nat := 0
  exec_count : Nat := 0
  exit_count : Nat := 0
  deriving DecidableEq, Repr

/-- The JIT state attached to the VM (the fields of WrenJitState the claims
touch).  The open-addressed trace table is a list of trace_capacity slots;
a slot is empty when its anchor_pc is 0 (NULL). -/
structure WrenJitState where
  traces : List JitTrace := []
  trace_capacity : Nat := 0
  trace_count : Nat := 0
  state : JitRecordState := .idle
  anchor_pc : Nat := 0
  traces_compiled : Nat := 0
  traces_aborted : Nat := 0
  total_exits : Nat := 0
  deriving DecidableEq, Repr

/-- The abort reasons of the modelled dispatch subset, one constructor per
distinct C string literal passed to jitRecorderAbort. -/
inductive AbortReason where
  | traceTooLong
  | stackUnderflowStoreLocal
  | untrackedValueStoreLocal
  | stackUnderflowPop
  | unsupportedCallBig
  | loopTargetNotAnchor
  | unsupportedUpvalue
  | returningOutOfTraceRoot
  | unsupportedOpcode
  | callDepthTooDeep
  deriving DecidableEq, Repr

/-- Recorder state, from wren_jit_trace.h.  slot_map and slot_live are the
two fixed arrays of JIT_TRACE_MAX_SLOTS entries. -/
structure JitRecorder where
  ir : IRBuffer := {}
  anchor_pc : Nat := 0
  slot_map : List Nat := List.replicate JIT_TRACE_MAX_SLOTS 0
  slot_live : List Bool := List.replicate JIT_TRACE_MAX_SLOTS false
  num_slots : Nat := 0
  stack_top : Nat := 0
  instr_count : Nat := 0
  call_depth : Nat := 0
  aborted : Bool := false
  abort_reason : Option AbortReason := none
  deriving DecidableEq, Repr

/-- slotSet from wren_jit_trace.c: ignore out-of-range slots, otherwise
record the SSA id, mark the slot live and widen num_slots. -/
def slotSet (r : JitRecorder) (slot ssa_id : Nat) : JitRecorder :=
  if JIT_TRACE_MAX_SLOTS ≤ slot then r
  else
    { r with slot_map := r.slot_map.set slot ssa_id,
             slot_live := r.slot_live.set slot true,
             num_slots := if r.num_slots < slot + 1 then slot + 1
                          else r.num_slots }

/-- slotGet from wren_jit_trace.c: the recorded SSA id of a live in-range
slot, IR_NONE otherwise. -/
def slotGet (r : JitRecorder) (slot : Nat) : Nat :=
  if slot < JIT_TRACE_MAX_SLOTS ∧ r.slot_live.getD slot false then
    r.slot_map.getD slot 0
  else IR_NONE

/-- The bytecode opcodes of the modelled dispatch subset.  load_local_fixed
covers CODE_LOAD_LOCAL_0 .. CODE_LOAD_LOCAL_8 (the slot is the opcode
distance from CODE_LOAD_LOCAL_0); code_loop carries the branch target
address the interpreter computed; code_call_big stands for the
CODE_CALL_2 .. CODE_CALL_16 group and code_upvalue for
CODE_LOAD_UPVALUE / CODE_STORE_UPVALUE. -/
inductive Code where
  | load_local_fixed (k : Fin 9)
  | load_local (slot : Nat)
  | store_local (slot : Nat)
  | code_null
  | code_false
  | code_true
  | code_pop
  | code_jump
  | code_loop (target : Nat)
  | code_return
  | code_call_big
  | code_upvalue
  | code_other
  deriving DecidableEq, Repr

/-- jitRecorderAbort from wren_jit_trace.c: flags the recorder, records the
reason, parks the JIT in the idle state and bumps the aborted-trace
counter.  Nothing else of the JIT state is touched. -/
def jitRecorderAbort (jit : WrenJitState) (r : JitRecorder)
    (reason : AbortReason) : WrenJitState × JitRecorder :=
  ({ jit with state := .idle, traces_aborted := jit.traces_aborted + 1 },
   { r with aborted := true, abort_reason := some reason })

/-- The body of the LOAD_LOCAL cases of jitRecorderStep (shared by the
fixed and the one-byte forms): reuse or emit the LOAD_STACK for the source
slot, then push the id onto the logical stack. -/
def stepLoadLocal (jit : WrenJitState) (r : JitRecorder) (src_slot : Nat) :
    Bool × WrenJitState × JitRecorder :=
  let ssa := slotGet r src_slot
  let (ssa, r) :=
    if ssa = IR_NONE then
      let (ssa, ir) := irEmitLoad r.ir src_slot
      (ssa, slotSet { r with ir := ir } src_slot ssa)
    else (ssa, r)
  let r := slotSet r r.stack_top ssa
  (false, jit, { r with stack_top := r.stack_top + 1 })

/-- The switch statement of jitRecorderStep, for the modelled opcode
subset: one case per bytecode family, each translated from the matching
case of the source.  The according-to-source first component is true for
the cases that return from the switch directly (the aborts and the loop
close). -/
def recorderDispatch (jit : WrenJitState) (r : JitRecorder) (op : Code) :
    Bool × WrenJitState × JitRecorder :=
  match op with
  | .load_local_fixed k => stepLoadLocal jit r k.val
  | .load_local slot => stepLoadLocal jit r slot
  | .store_local dst_slot =>
    if r.stack_top = 0 then
      let (jit, r) := jitRecorderAbort jit r .stackUnderflowStoreLocal
      (true, jit, r)
    else
      let ssa := slotGet r (r.stack_top - 1)
      if ssa = IR_NONE then
        let (jit, r) := jitRecorderAbort jit r .untrackedValueStoreLocal
        (true, jit, r)
      else
        let (_, ir) := irEmitStore r.ir dst_slot ssa
        (false, jit, slotSet { r with ir := ir } dst_slot ssa)
  | .code_null =>
    let (ssa, ir) := irEmitConstNull r.ir
    let r := slotSet { r with ir := ir } r.stack_top ssa
    (false, jit, { r with stack_top := r.stack_top + 1 })
  | .code_false =>
    let (ssa, ir) := irEmitConstBool r.ir false
    let r := slotSet { r with ir := ir } r.stack_top ssa
    (false, jit, { r with stack_top := r.stack_top + 1 })
  | .code_true =>
    let (ssa, ir) := irEmitConstBool r.ir true
    let r := slotSet { r with ir := ir } r.stack_top ssa
    (false, jit, { r with stack_top := r.stack_top + 1 })
  | .code_pop =>
    if r.stack_top = 0 then
      let (jit, r) := jitRecorderAbort jit r .stackUnderflowPop
      (true, jit, r)
    else
      let r := { r with stack_top := r.stack_top - 1 }
      (false, jit,
       { r with slot_live := r.slot_live.set r.stack_top false })
  | .code_jump => (false, jit, r)
  | .code_loop target =>
    if target = r.anchor_pc then
      let (_, ir) := irEmitLoopBack r.ir
      (true, { jit with state := .compiling }, { r with ir := ir })
    else
      let (jit, r) := jitRecorderAbort jit r .loopTargetNotAnchor
      (true, jit, r)
  | .code_return =>
    if 0 < r.call_depth then
      (false, jit, { r with call_depth := r.call_depth - 1 })
    else
      let (jit, r) := jitRecorderAbort jit r .returningOutOfTraceRoot
      (true, jit, r)
  | .code_call_big =>
    let (jit, r) := jitRecorderAbort jit r .unsupportedCallBig
    (true, jit, r)
  | .code_upvalue =>
    let (jit, r) := jitRecorderAbort jit r .unsupportedUpvalue
    (true, jit, r)
  | .code_other =>
    let (jit, r) := jitRecorderAbort jit r .unsupportedOpcode
    (true, jit, r)

/-- jitRecorderStep from wren_jit_trace.c, for the modelled opcode subset.
Returns the completion flag of the source together with the updated JIT and
recorder state.  The instruction-count abort precedes the dispatch
(identically for every opcode); the call-depth test follows it; the
dispatch cases that return from the switch directly (aborts and the
loop close) skip the call-depth test. -/
def jitRecorderStep (jit : WrenJitState) (r : JitRecorder) (op : Code) :
    Bool × WrenJitState × JitRecorder :=
  if r.aborted then (false, jit, r)
  else
    let r := { r with instr_count := r.instr_count + 1 }
    if JIT_TRACE_MAX_INSNS < r.instr_count then
      let (jit, r) := jitRecorderAbort jit r .traceTooLong
      (false, jit, r)
    else
      let (done, jit, r) := recorderDispatch jit r op
      if done then (if r.aborted then false else true, jit, r)
      else if JIT_TRACE_MAX_CALL_DEPTH < r.call_depth then
        let (jit, r) := jitRecorderAbort jit r .callDepthTooDeep
        (false, jit, r)
      else (false, jit, r)

/-- jitRecorderStart from wren_jit_trace.c: zero the recorder, emit the
reserved pre-header NOP slots (the JIT_PRE_HEADER_SLOTS macro is not among
the sources, so the count is a parameter here), emit the loop header, then
pre-populate the slot map with one LOAD_STACK per live interpreter slot
(num_slots clamped to JIT_TRACE_MAX_SLOTS) and mark the JIT recording. -/
def jitRecorderStart (jit : WrenJitState) (anchor_pc num_slots
    preHeaderSlots : Nat) : WrenJitState × JitRecorder :=
  let r : JitRecorder := { anchor_pc := anchor_pc }
  let ir := (List.range preHeaderSlots).foldl
    (fun ir _ => irEmit ir .nop IR_NONE IR_NONE .void) r.ir
  let (_, ir) := irEmitLoopHeader ir
  let ns := min num_slots JIT_TRACE_MAX_SLOTS
  let r := { r with ir := ir, num_slots := ns, stack_top := ns }
  let r := (List.range ns).foldl
    (fun r s =>
      let (ssa, ir) := irEmitLoad r.ir s
      slotSet { r with ir := ir } s ssa) r
  ({ jit with state := .recording, anchor_pc := anchor_pc }, r)

/-- The interpreter feeding the recorder one instruction at a time (the
completion flag is consumed by the interpreter; an aborted recorder turns
every further step into a no-op, as in the source). -/
def runRecorder (jit : WrenJitState) (r : JitRecorder) :
    List Code → WrenJitState × JitRecorder
  | [] => (jit, r)
  | op :: ops =>
    let (_, jit, r) := jitRecorderStep jit r op
    runRecorder jit r ops

/-- A run of the recorder in which no step closes the loop and no step
aborts: each step returns false and leaves the recorder unaborted. -/
def NeutralRun (jit : WrenJitState) (r : JitRecorder) : List Code → Prop
  | [] => True
  | op :: ops =>
    (jitRecorderStep jit r op).1 = false ∧
    ((jitRecorderStep jit r op).2.2).aborted = false ∧
    NeutralRun (jitRecorderStep jit r op).2.1 (jitRecorderStep jit r op).2.2
      ops

/-! ## Monomorphic widening for Range.iterate (wren_jit_trace_widen.c)

jitTryWidenCall1 inspects the concrete receiver and the method symbol.  The
receiver test IS_RANGE, the two symbol-name comparisons against
iterate(_) / iteratorValue(_) and the range-class pointer of the VM are
inputs here; the range payload carries the from / to bounds (doubles,
modelled as rationals) and the inclusivity flag of ObjRange. -/

/-- The fields of ObjRange the inliner reads (from and to are keywords in
Lean, hence the underscores). -/
structure ObjRange where
  from_ : Rat
  to_ : Rat
  isInclusive : Bool
  deriving DecidableEq, Repr

/-- widenSlotGet from wren_jit_trace_widen.c (verbatim duplicate of
slotGet). -/
def widenSlotGet (r : JitRecorder) (slot : Nat) : Nat := slotGet r slot

/-- widenSlotSet from wren_jit_trace_widen.c (verbatim duplicate of
slotSet). -/
def widenSlotSet (r : JitRecorder) (slot ssa : Nat) : JitRecorder :=
  slotSet r slot ssa

/-- widenEmitSnapshot from wren_jit_trace_widen.c: emit a snapshot at the
given resume address and add one entry per live slot below the logical
stack top. -/
def widenEmitSnapshot (r : JitRecorder) (ip : Nat) : Nat × JitRecorder :=
  let (snap_id, ir) := irEmitSnapshot r.ir ip r.stack_top
  let ir := (natRange 0 r.stack_top).foldl
    (fun ir i =>
      if r.slot_live.getD i false then
        irSnapshotAddEntry ir snap_id i (r.slot_map.getD i 0)
      else ir) ir
  (snap_id, { r with ir := ir })

/-- inlineRangeIterate from wren_jit_trace_widen.c: guard the iterator is a
number, unbox it, add the direction step constant, compare against the
bound with the operator picked by direction and inclusivity, guard the
boxed comparison, then box the advanced iterator and write it back with the
CALL_1 stack effect. -/
def inlineRangeIterate (r : JitRecorder) (range : ObjRange)
    (recv_slot snap recv_ssa arg_ssa : Nat) : Bool × JitRecorder :=
  let ascending : Bool := decide (range.from_ ≤ range.to_)
  let inclusive := range.isInclusive
  let step : Rat := if ascending then 1 else -1
  let limit := range.to_
  let (_, ir) := irEmitGuardNum r.ir arg_ssa snap
  let (iter_fp, ir) := irEmitUnbox ir arg_ssa
  let (step_ssa, ir) := irEmitConst ir step
  let new_iter := ir.count
  let ir := irEmit ir .add iter_fp step_ssa .num
  let (limit_ssa, ir) := irEmitConst ir limit
  let cmp_op := if ascending then (if inclusive then IROp.lte else IROp.lt)
                else (if inclusive then IROp.gte else IROp.gt)
  let cmp_result := ir.count
  let ir := irEmit ir cmp_op new_iter limit_ssa .bool
  let boxed_cmp := ir.count
  let ir := irEmit ir .box_bool cmp_result IR_NONE .value
  let (_, ir) := irEmitGuardTrue ir boxed_cmp snap
  let (boxed_iter, ir) := irEmitBox ir new_iter
  let r := { r with ir := ir, stack_top := r.stack_top - 1 }
  let r := { r with slot_live := r.slot_live.set r.stack_top false }
  let r := widenSlotSet r recv_slot boxed_iter
  (true, r)

/-- inlineRangeIteratorValue from wren_jit_trace_widen.c: guard the
argument is a number and alias it as the call result. -/
def inlineRangeIteratorValue (r : JitRecorder)
    (recv_slot snap arg_ssa : Nat) : Bool × JitRecorder :=
  let (_, ir) := irEmitGuardNum r.ir arg_ssa snap
  let r := { r with ir := ir, stack_top := r.stack_top - 1 }
  let r := { r with slot_live := r.slot_live.set r.stack_top false }
  let r := widenSlotSet r recv_slot arg_ssa
  (true, r)

/-- jitTryWidenCall1 from wren_jit_trace_widen.c.  recvIsRange stands for
IS_RANGE on the concrete receiver, is_iterate / is_iterval for the two
symbol-name comparisons, rangeClass for the class pointer of the VM. -/
def jitTryWidenCall1 (r : JitRecorder) (recvIsRange : Bool)
    (range : ObjRange) (is_iterate is_iterval : Bool) (ip rangeClass : Nat) :
    Bool × JitRecorder :=
  if r.aborted then (false, r)
  else if r.stack_top < 2 then (false, r)
  else
    let recv_slot := r.stack_top - 2
    let arg_slot := r.stack_top - 1
    if recvIsRange then
      if !is_iterate && !is_iterval then (false, r)
      else
        let (snap, r) := widenEmitSnapshot r ip
        let recv_ssa := widenSlotGet r recv_slot
        let (recv_ssa, r) :=
          if recv_ssa = IR_NONE then
            let (ssa, ir) := irEmitLoad r.ir recv_slot
            (ssa, widenSlotSet { r with ir := ir } recv_slot ssa)
          else (recv_ssa, r)
        let arg_ssa := widenSlotGet r arg_slot
        let (arg_ssa, r) :=
          if arg_ssa = IR_NONE then
            let (ssa, ir) := irEmitLoad r.ir arg_slot
            (ssa, widenSlotSet { r with ir := ir } arg_slot ssa)
          else (arg_ssa, r)
        let (_, ir) := irEmitGuardClass r.ir recv_ssa rangeClass snap
        let r := { r with ir := ir }
        if is_iterate then
          inlineRangeIterate r range recv_slot snap recv_ssa arg_ssa
        else inlineRangeIteratorValue r recv_slot snap arg_ssa

    else (false, r)

/-- A recorder as jitRecorderStart leaves it for a two-slot frame (two
reserved pre-header NOPs, the loop header, and LOAD_STACK nodes 3 and 4 for
slots 0 and 1): receiver in slot 0, iterator argument in slot 1. -/
def c7Rec : JitRecorder := (jitRecorderStart {} 7 2 2).2

/-! ### Side exits: stub emission and deoptimization (wren_jit_codegen.c
lines 1016-1038, wren_jit.c wrenJitRestoreExit) -/

/-- A fragment of the native instruction stream the code generator can emit
through SLJIT.  The model keeps exactly the shapes relevant to side exits: a
label, an immediate return, and a store of an SSA value into an interpreter
stack slot (sljit_emit_op1 with a MEM destination based on the stack
pointer, the shape a snapshot write-back would use). -/
inductive NInstr where
  | label (idx : Nat)
  | ret_imm (v : Nat)
  | store_stack (slot : Nat) (ssa : Nat)
  deriving DecidableEq, Repr

/-- Does the instruction write an interpreter stack slot? -/
def NInstr.writesStack : NInstr → Bool
  | .store_stack _ _ => true
  | _ => false

/-- The side-exit stub loop of wrenJitCodegen: for each snapshot index si
it emits a label and then returns si + 1 immediately (the caller decodes
the exit index from the return value).  Nothing else is emitted. -/
def sideExitStubs (maxSnapshots : Nat) : List NInstr :=
  (natRange 0 maxSnapshots).foldl
    (fun code si => code ++ [NInstr.label si, NInstr.ret_imm (si + 1)]) []

/-- A call frame as wrenJitRestoreExit touches it. -/
structure CallFrame where
  ip : Nat
  stackStart : Nat
  deriving DecidableEq, Repr

/-- The fiber state wrenJitRestoreExit operates on: the frame stack, the
value stack slot contents, and the stack-top index. -/
structure ObjFiber where
  frames : List CallFrame
  stack : List Nat
  stackTop : Nat
  deriving DecidableEq, Repr

/-- wrenJitRestoreExit from wren_jit.c: after a side exit it only sets the
resume ip of the innermost frame and the stack top from the snapshot; the
early returns model the NULL-snapshot-array and out-of-range exit index
guards, and none (never reached from the VM) models the undefined access
into frames[numFrames - 1] when the fiber has no frames. -/
def wrenJitRestoreExit (fiber : ObjFiber) (snapshots : List JitSnapshot)
    (exitIdx : Nat) : Option ObjFiber :=
  if snapshots.isEmpty then some fiber
  else if snapshots.length ≤ exitIdx then some fiber
  else
    match fiber.frames.getLast? with
    | none => none
    | some f =>
      let snap := snapshots.getD exitIdx {}
      some { fiber with
        frames := fiber.frames.set (fiber.frames.length - 1)
                    { f with ip := snap.resume_pc },
        stackTop := f.stackStart + snap.stack_depth }

/-! ### Register allocation data (wren_jit_regalloc.h) and the SLJIT
operand resolution helpers of wren_jit_codegen.c -/

/-- Register classes from wren_jit_regalloc.h. -/
inductive RegClass where
  | gp
  | fp
  deriving DecidableEq, Repr

/-- The location union of a RegAlloc: a register pool index or a spill
slot index.  The C union overlays both int members, so each accessor below
reads whichever value was stored. -/
inductive RegLoc where
  | reg (r : Nat)
  | spill_slot (s : Nat)
  deriving DecidableEq, Repr

/-- Read the loc union as loc.reg. -/
def RegLoc.regVal : RegLoc → Nat
  | .reg r => r
  | .spill_slot s => s

/-- Read the loc union as loc.spill_slot. -/
def RegLoc.spillVal : RegLoc → Nat
  | .reg r => r
  | .spill_slot s => s

/-- Physical register assignment from wren_jit_regalloc.h.  The defaults
are the all-zero struct regAllocGet returns for out-of-range ids. -/
structure RegAlloc where
  is_spill : Bool := false
  loc : RegLoc := .reg 0
  reg_class : RegClass := .gp
  deriving DecidableEq, Repr

/-- Live range for an SSA value, from wren_jit_regalloc.h.  The C field
named end (last use) is called stop here because end is a Lean keyword. -/
structure LiveRange where
  ssa_id : Nat := 0
  start : Nat := 0
  stop : Nat := 0
  reg_class : RegClass := .gp
  alloc : RegAlloc := {}
  deriving DecidableEq, Repr

/-- classifyRegClass from wren_jit_regalloc.c: only IR_TYPE_NUM gets a
floating-point register, every other type (including IR_TYPE_INT) is GP. -/
def classifyRegClass (type : IRType) : RegClass :=
  if type = IRType.num then RegClass.fp else RegClass.gp

/-- regAllocGet from wren_jit_regalloc.c: the zero struct for a missing
table or out-of-range ssa id, else the table entry.  The ssa_to_reg array
is the list, its length stands for ssa_count, and the empty list stands
for the NULL pointer. -/
def regAllocGet (ssa_to_reg : List RegAlloc) (ssa_id : Nat) : RegAlloc :=
  if ssa_to_reg.isEmpty ∨ ssa_to_reg.length ≤ ssa_id then {}
  else ssa_to_reg.getD ssa_id {}

/-- The SLJIT register operands wren_jit_codegen.c resolves to: the GP
scratch file SLJIT_R(i), the FP files SLJIT_FR(i) and SLJIT_FS(i), and the
stack-frame memory operand SLJIT_MEM1(SLJIT_SP).  sljit encodes these as
distinct integers; the model keeps them as distinct constructors. -/
inductive SljitReg where
  | R (i : Nat)
  | FR (i : Nat)
  | FS (i : Nat)
  | mem1_sp
  deriving DecidableEq, Repr

/-- FP_SCRATCH_BASE_CODE from wren_jit_codegen.c. -/
def FP_SCRATCH_BASE_CODE : Nat := 100

/-- FP_SAVED_BASE_CODE from wren_jit_codegen.c. -/
def FP_SAVED_BASE_CODE : Nat := 200

/-- mapGPReg from wren_jit_codegen.c: pool indices 0-5 map to
SLJIT_R0..R5. -/
def mapGPReg (poolIdx : Nat) : SljitReg := .R poolIdx

/-- mapFPReg from wren_jit_codegen.c. -/
def mapFPReg (poolIdx : Nat) : SljitReg :=
  if FP_SAVED_BASE_CODE ≤ poolIdx then .FS (poolIdx - FP_SAVED_BASE_CODE)
  else if FP_SCRATCH_BASE_CODE ≤ poolIdx then .FR (poolIdx - FP_SCRATCH_BASE_CODE)
  else .FR 0

/-- ssaToSljitReg from wren_jit_codegen.c: none stands for the -1 return
(value spilled); the Bool is the is_fp out-parameter and the Nat the
spillOff out-parameter. -/
def ssaToSljitReg (ssa_to_reg : List RegAlloc) (ssaId : Nat) :
    Option SljitReg × Bool × Nat :=
  let alloc := regAllocGet ssa_to_reg ssaId
  let is_fp := decide (alloc.reg_class = RegClass.fp)
  if alloc.is_spill then (none, is_fp, alloc.loc.spillVal * 8)
  else if alloc.reg_class = RegClass.fp then (some (mapFPReg alloc.loc.regVal), is_fp, 0)
  else (some (mapGPReg alloc.loc.regVal), is_fp, 0)

/-- The (reg, memBase, memOff) triple getGP and getFP produce. -/
structure OpndRes where
  reg : SljitReg
  isMem : Bool
  off : Nat
  deriving DecidableEq, Repr

/-- getGP from wren_jit_codegen.c. -/
def getGP (ssa_to_reg : List RegAlloc) (ssaId : Nat) : OpndRes :=
  match ssaToSljitReg ssa_to_reg ssaId with
  | (some r, _, _) => ⟨r, false, 0⟩
  | (none, _, spillOff) => ⟨.mem1_sp, true, spillOff⟩

/-- getFP from wren_jit_codegen.c (its body is identical to getGP: the
register-class dispatch happens inside ssaToSljitReg). -/
def getFP (ssa_to_reg : List RegAlloc) (ssaId : Nat) : OpndRes :=
  match ssaToSljitReg ssa_to_reg ssaId with
  | (some r, _, _) => ⟨r, false, 0⟩
  | (none, _, spillOff) => ⟨.mem1_sp, true, spillOff⟩

/-! ### The arithmetic lowering of wrenJitCodegen (codegen.c 487-535) -/

/-- The SLJIT float opcodes the arithmetic case can select. -/
inductive SljitFOp where
  | mov_f64
  | add_f64
  | sub_f64
  | mul_f64
  | div_f64
  | neg_f64
  deriving DecidableEq, Repr

/-- The SLJIT integer opcodes of sljit_emit_op1/op2 that appear in
wren_jit_codegen.c (mov, or, and) together with the integer arithmetic
opcodes sljit offers (add, sub, mul), which a GP lowering of integer
arithmetic would use. -/
inductive SljitOp where
  | mov
  | or_op
  | and_op
  | add
  | sub
  | mul
  deriving DecidableEq, Repr

/-- One emitted SLJIT call: fop1/fop2 drive the FP pipeline, op1/op2 the
GP pipeline.  Each operand is a register (offset 0) or a memory operand
with an offset, exactly the (reg, off) pairs passed in the source. -/
inductive CgInstr where
  | fop1 (op : SljitFOp) (dst : SljitReg) (dstOff : Nat)
      (src : SljitReg) (srcOff : Nat)
  | fop2 (op : SljitFOp) (dst : SljitReg) (dstOff : Nat)
      (src1 : SljitReg) (src1Off : Nat) (src2 : SljitReg) (src2Off : Nat)
  | op1 (op : SljitOp) (dst : SljitReg) (dstOff : Nat)
      (src : SljitReg) (srcOff : Nat)
  | op2 (op : SljitOp) (dst : SljitReg) (dstOff : Nat)
      (src1 : SljitReg) (src1Off : Nat) (src2 : SljitReg) (src2Off : Nat)
  deriving DecidableEq, Repr

/-- Does the instruction run on the FP pipeline (an sljit_emit_fop1 or
sljit_emit_fop2 call)? -/
def CgInstr.isFPInstr : CgInstr → Bool
  | .fop1 _ _ _ _ _ => true
  | .fop2 _ _ _ _ _ _ _ => true
  | _ => false

/-- The fop selection switch of the IR_ADD..IR_DIV case. -/
def arithFop (op : IROp) : SljitFOp :=
  match op with
  | .add => .add_f64
  | .sub => .sub_f64
  | .mul => .mul_f64
  | .div => .div_f64
  | _ => .add_f64

/-- The IR_ADD/IR_SUB/IR_MUL/IR_DIV case of the main codegen loop
(wren_jit_codegen.c lines 487-535), translated call for call: all three
operands are resolved with getFP, spilled sources are first loaded into
the FP scratch registers FR0/FR1, the operation itself is one
sljit_emit_fop2 with the selected *_F64 opcode, and a spilled destination
is stored back with an FP move.  The node's type field is never read. -/
def emitArith (ssa_to_reg : List RegAlloc) (n : IRNode) : List CgInstr :=
  let fop := arithFop n.op
  let s1 := getFP ssa_to_reg n.op1
  let s2 := getFP ssa_to_reg n.op2
  let d := getFP ssa_to_reg n.id
  let load1 : List CgInstr :=
    if s1.isMem then [.fop1 .mov_f64 (.FR 0) 0 s1.reg s1.off] else []
  let load2 : List CgInstr :=
    if s2.isMem then [.fop1 .mov_f64 (.FR 1) 0 s2.reg s2.off] else []
  let s1r := if s1.isMem then SljitReg.FR 0 else s1.reg
  let s2r := if s2.isMem then SljitReg.FR 1 else s2.reg
  let dr := if d.isMem then SljitReg.FR 0 else d.reg
  let store : List CgInstr :=
    if d.isMem then [.fop1 .mov_f64 d.reg d.off (.FR 0) 0] else []
  load1 ++ load2 ++ [.fop2 fop dr 0 s1r 0 s2r 0] ++ store

/-- An integer-typed addition node (the shape irOptIVTypeInference
produces when it narrows an induction variable to IR_TYPE_INT). -/
def c4Node : IRNode := { op := .add, id := 2, op1 := 0, op2 := 1, type := .int }

/-! ### The PC-keyed trace cache (wren_jit.c): hash_pc, wrenJitLookup,
grow_trace_table, wrenJitStoreTrace -/

/-- hash_pc from wren_jit.c: the pointer value shifted right by two,
multiplied by the Knuth constant, truncated to uint32. -/
def hash_pc (pc : Nat) : Nat := ((pc >>> 2) * 2654435761) % 4294967296

/-- The probe loop of wrenJitLookup: at each index, an empty slot
(anchor_pc NULL, i.e. 0) ends the search, a matching anchor returns the
slot, otherwise the next index is (idx + 1) & mask.  The fuel is the for
loop bound (trace_capacity iterations). -/
def lookupLoop (traces : List JitTrace) (mask pc : Nat) :
    Nat → Nat → Option JitTrace
  | 0, _ => none
  | fuel + 1, idx =>
    let t := traces.getD idx {}
    if t.anchor_pc = 0 then none
    else if t.anchor_pc = pc then some t
    else lookupLoop traces mask pc fuel ((idx + 1) &&& mask)

/-- wrenJitLookup from wren_jit.c; the empty traces list stands for the
NULL table. -/
def wrenJitLookup (jit : WrenJitState) (pc : Nat) : Option JitTrace :=
  if jit.traces.isEmpty then none
  else
    let mask := jit.trace_capacity - 1
    lookupLoop jit.traces mask pc jit.trace_capacity (hash_pc pc &&& mask)

/-- The rehash insertion loop of grow_trace_table: probe the new table for
an empty slot.  The C while loop always terminates because the new table
is at least half empty; the fuel (new capacity) covers every reachable
case, and exhausted fuel leaves the table unchanged. -/
def growInsert (mask : Nat) (t : JitTrace) :
    List JitTrace → Nat → Nat → List JitTrace
  | traces, 0, _ => traces
  | traces, fuel + 1, idx =>
    if (traces.getD idx {}).anchor_pc = 0 then traces.set idx t
    else growInsert mask t traces fuel ((idx + 1) &&& mask)

/-- grow_trace_table from wren_jit.c: double the capacity, rehash every
occupied slot into a fresh zeroed table.  The model's allocation always
succeeds. -/
def grow_trace_table (jit : WrenJitState) : WrenJitState :=
  let new_cap := jit.trace_capacity * 2
  let new_mask := new_cap - 1
  let new_traces := jit.traces.foldl
    (fun acc t =>
      if t.anchor_pc = 0 then acc
      else growInsert new_mask t acc new_cap (hash_pc t.anchor_pc &&& new_mask))
    (List.replicate new_cap {})
  { jit with traces := new_traces, trace_capacity := new_cap }

/-- The probe-and-store while loop of wrenJitStoreTrace.  A matching
anchor frees the displaced trace's code, snapshot table and GC-root array
-- returned as the second component so the release is observable -- and
replaces the slot in place without touching trace_count; an empty slot
receives the trace and bumps trace_count and traces_compiled.  none models
the C while loop not terminating within the fuel (a full table with no
match, unreachable behind the load-factor check). -/
def storeProbe (jit : WrenJitState) (trace : JitTrace) (mask : Nat) :
    Nat → Nat → Option (WrenJitState × Option (Nat × List JitSnapshot × List Nat))
  | 0, _ => none
  | fuel + 1, idx =>
    let t := jit.traces.getD idx {}
    if t.anchor_pc = 0 then
      some ({ jit with traces := jit.traces.set idx trace,
                       trace_count := jit.trace_count + 1,
                       traces_compiled := jit.traces_compiled + 1 }, none)
    else if t.anchor_pc = trace.anchor_pc then
      some ({ jit with traces := jit.traces.set idx trace },
            some (t.code, t.snapshots, t.gc_roots))
    else storeProbe jit trace mask fuel ((idx + 1) &&& mask)

/-- wrenJitStoreTrace from wren_jit.c: grow when the load factor reaches
0.7, then probe from the anchor's hash slot. -/
def wrenJitStoreTrace (jit : WrenJitState) (trace : JitTrace) :
    Option (WrenJitState × Option (Nat × List JitSnapshot × List Nat)) :=
  let jit := if jit.trace_count * 10 ≥ jit.trace_capacity * 7
             then grow_trace_table jit else jit
  let mask := jit.trace_capacity - 1
  storeProbe jit trace mask jit.trace_capacity (hash_pc trace.anchor_pc &&& mask)

/-- The well-formedness wrenJitInit and grow_trace_table maintain: the
table has exactly trace_capacity slots and the capacity is a power of two
(JIT_MAX_TRACES = 1024 initially, doubled on growth), which makes
index & (capacity - 1) a valid index. -/
def jitTableWF (jit : WrenJitState) : Prop :=
  jit.traces.length = jit.trace_capacity ∧ ∃ k, jit.trace_capacity = 2 ^ k

/-- A four-slot trace cache as wrenJitInit would build it (scaled down
from JIT_MAX_TRACES to keep the witness small). -/
def c8Jit0 : WrenJitState :=
  { traces := List.replicate 4 {}, trace_capacity := 4 }

/-- A first compiled trace anchored at pc 12, with a code pointer, one
snapshot and one GC root. -/
def c8T1 : JitTrace :=
  { anchor_pc := 12, code := 100, code_size := 64,
    snapshots := [{ resume_pc := 5, stack_depth := 2 }], num_snapshots := 1,
    gc_roots := [7], num_gc_roots := 1 }

/-- A second trace compiled for the same anchor pc 12. -/
def c8T2 : JitTrace :=
  { anchor_pc := 12, code := 200, code_size := 80,
    snapshots := [{ resume_pc := 6, stack_depth := 3 }], num_snapshots := 1,
    gc_roots := [9], num_gc_roots := 1 }

/-- The cache state after storing c8T1 into c8Jit0 (hash_pc 12 lands on
slot 3). -/
def c8Jit2 : WrenJitState :=
  { traces := [{}, {}, {}, c8T1], trace_capacity := 4,
    trace_count := 1, traces_compiled := 1 }

/-! ### The linear-scan register allocator (wren_jit_regalloc.c) -/

/-- GP_SCRATCH_COUNT from wren_jit_regalloc.c. -/
def GP_SCRATCH_COUNT : Nat := 6

/-- FP_SCRATCH_COUNT from wren_jit_regalloc.c. -/
def FP_SCRATCH_COUNT : Nat := 6

/-- FP_SAVED_COUNT from wren_jit_regalloc.c. -/
def FP_SAVED_COUNT : Nat := 4

/-- FP_SCRATCH_BASE from wren_jit_regalloc.c (encoded pool origin). -/
def FP_SCRATCH_BASE : Nat := 100

/-- FP_SAVED_BASE from wren_jit_regalloc.c. -/
def FP_SAVED_BASE : Nat := 200

/-- The register allocator state from wren_jit_regalloc.h: the live-range
array (num_ranges is its length), the three free-register pools, the spill
counters and the ssa-to-allocation map (ssa_count is its length). -/
structure RegAllocState where
  ranges : List LiveRange := []
  gp_scratch_free : List Bool := []
  fp_scratch_free : List Bool := []
  fp_saved_free : List Bool := []
  next_spill_slot : Nat := 0
  max_spill_slots : Nat := 0
  ssa_to_reg : List RegAlloc := []
  deriving DecidableEq, Repr

/-- regAllocInit from wren_jit_regalloc.c: all registers free except
R0/R1 and FR0/FR1, reserved as codegen scratch. -/
def regAllocInit (ssa_count : Nat) : RegAllocState :=
  { ranges := [],
    gp_scratch_free := [false, false, true, true, true, true],
    fp_scratch_free := [false, false, true, true, true, true],
    fp_saved_free := [true, true, true, true],
    next_spill_slot := 0, max_spill_slots := 0,
    ssa_to_reg := List.replicate ssa_count {} }

/-- First index holding true (the scan of the alloc*Reg loops). -/
def findFreeIdx : List Bool → Option Nat
  | [] => none
  | b :: rest => if b then some 0 else (findFreeIdx rest).map (· + 1)

/-- allocGPReg from wren_jit_regalloc.c: first free GP scratch register,
marked taken; none models the -1 return. -/
def allocGPReg (state : RegAllocState) : Option Nat × RegAllocState :=
  match findFreeIdx state.gp_scratch_free with
  | some i => (some i,
      { state with gp_scratch_free := state.gp_scratch_free.set i false })
  | none => (none, state)

/-- allocFPReg from wren_jit_regalloc.c: FP scratch pool first, then the
FP saved pool, with the pool origin encoded in the returned index. -/
def allocFPReg (state : RegAllocState) : Option Nat × RegAllocState :=
  match findFreeIdx state.fp_scratch_free with
  | some i => (some (FP_SCRATCH_BASE + i),
      { state with fp_scratch_free := state.fp_scratch_free.set i false })
  | none =>
    match findFreeIdx state.fp_saved_free with
    | some i => (some (FP_SAVED_BASE + i),
        { state with fp_saved_free := state.fp_saved_free.set i false })
    | none => (none, state)

/-- freeReg from wren_jit_regalloc.c: return a register to the pool its
encoded index names; spills and out-of-pool indices are ignored. -/
def freeReg (state : RegAllocState) (alloc : RegAlloc) : RegAllocState :=
  if alloc.is_spill then state
  else
    let r := alloc.loc.regVal
    if alloc.reg_class = RegClass.gp then
      if r < GP_SCRATCH_COUNT then
        { state with gp_scratch_free := state.gp_scratch_free.set r true }
      else state
    else
      if FP_SAVED_BASE ≤ r ∧ r < FP_SAVED_BASE + FP_SAVED_COUNT then
        { state with fp_saved_free :=
            state.fp_saved_free.set (r - FP_SAVED_BASE) true }
      else if FP_SCRATCH_BASE ≤ r ∧ r < FP_SCRATCH_BASE + FP_SCRATCH_COUNT then
        { state with fp_scratch_free :=
            state.fp_scratch_free.set (r - FP_SCRATCH_BASE) true }
      else state

/-- makeSpill from wren_jit_regalloc.c. -/
def makeSpill (state : RegAllocState) (rc : RegClass) :
    RegAlloc × RegAllocState :=
  let slot := state.next_spill_slot
  let m := if state.max_spill_slots < slot + 1 then slot + 1
           else state.max_spill_slots
  ({ is_spill := true, loc := .spill_slot slot, reg_class := rc },
   { state with next_spill_slot := slot + 1, max_spill_slots := m })

/-- activeInsert from wren_jit_regalloc.c: insert a range index into the
active set keeping it sorted by ascending end point (the element goes in
front of the first member whose end exceeds it). -/
def activeInsert (active : List Nat) (range_idx : Nat)
    (ranges : List LiveRange) : List Nat :=
  match active with
  | [] => [range_idx]
  | ri :: rest =>
    if (ranges.getD range_idx {}).stop < (ranges.getD ri {}).stop then
      range_idx :: ri :: rest
    else ri :: activeInsert rest range_idx ranges

/-- activeRemove from wren_jit_regalloc.c: delete the element at a
position (the shift-left loop). -/
def activeRemove (active : List Nat) (pos : Nat) : List Nat :=
  active.eraseIdx pos

/-- expireOldIntervals from wren_jit_regalloc.c: pop expired ranges (end
before the current start) off the front of the active set, returning each
one's register to its pool; stop at the first non-expired member. -/
def expireOldIntervals (state : RegAllocState) (active : List Nat)
    (current_start : Nat) : RegAllocState × List Nat :=
  match active with
  | [] => (state, [])
  | ri :: rest =>
    let lr := state.ranges.getD ri {}
    if lr.stop < current_start then
      expireOldIntervals (freeReg state lr.alloc) rest current_start
    else (state, ri :: rest)

/-- The backward scan of spillAtInterval: the position (into the active
set) of the last member of the requested register class. -/
def findSpillPos (ranges : List LiveRange) (rc : RegClass) :
    List Nat → Option Nat
  | [] => none
  | ri :: rest =>
    match findSpillPos ranges rc rest with
    | some p => some (p + 1)
    | none => if (ranges.getD ri {}).reg_class = rc then some 0 else none

/-- The spill-the-current-range arm of spillAtInterval (reached with no
active range, none of the right class, or a candidate that does not
outlive the current range): ranges[i] gets a fresh spill slot.  The other
arm steals the candidate's register: current takes the candidate's
allocation, the candidate is respilled, both are recorded in ssa_to_reg,
and the candidate leaves the active set.  The source then calls
activeInsert(active, -1, NULL) and decrements the count: a net no-op when
the set became empty, but a NULL dereference (undefined behaviour,
modelled as none) when any member remains; the unguarded ssa_to_reg
writes are likewise undefined (none) for out-of-range ssa ids. -/
def spillCurrent (state : RegAllocState) (i : Nat) : RegAllocState :=
  let current := state.ranges.getD i {}
  let ms := makeSpill state current.reg_class
  { ms.2 with ranges := ms.2.ranges.set i { current with alloc := ms.1 } }

/-- spillAtInterval from wren_jit_regalloc.c, acting on ranges[i]
(see the doc of spillCurrent for the spill-the-current-range arm). -/
def spillAtInterval (state : RegAllocState) (active : List Nat) (i : Nat) :
    Option (RegAllocState × List Nat) :=
  let current := state.ranges.getD i {}
  if active.isEmpty then some (spillCurrent state i, active)
  else
    match findSpillPos state.ranges current.reg_class active with
    | none => some (spillCurrent state i, active)
    | some spill_pos =>
      let spill_ri := active.getD spill_pos 0
      let spill := state.ranges.getD spill_ri {}
      if current.stop < spill.stop then
        if current.ssa_id < state.ssa_to_reg.length ∧
           spill.ssa_id < state.ssa_to_reg.length then
          let curNew := { current with alloc := spill.alloc }
          let ms := makeSpill state spill.reg_class
          let spillNew := { spill with alloc := ms.1 }
          let st2 := { ms.2 with
            ranges := (ms.2.ranges.set i curNew).set spill_ri spillNew,
            ssa_to_reg := (ms.2.ssa_to_reg.set curNew.ssa_id
                curNew.alloc).set spillNew.ssa_id spillNew.alloc }
          let active2 := activeRemove active spill_pos
          if active2.isEmpty then some (st2, active2) else none
        else none
      else some (spillCurrent state i, active)

/-- The tail of a regAllocRun iteration that fell back to
spillAtInterval: record the (guarded) ssa_to_reg entry; a range left
spilled is skipped (the continue), a range that stole a register joins
the active set. -/
def regAllocFinish (state3 : RegAllocState) (active2 : List Nat)
    (i : Nat) : RegAllocState × List Nat :=
  let lr := state3.ranges.getD i {}
  let state4 := { state3 with
    ssa_to_reg := if lr.ssa_id < state3.ssa_to_reg.length then
        state3.ssa_to_reg.set lr.ssa_id lr.alloc
      else state3.ssa_to_reg }
  if lr.alloc.is_spill then (state4, active2)
  else (state4, activeInsert active2 i state4.ranges)

/-- One iteration of the regAllocRun loop for ranges[i]: expire old
intervals at the current start, try the pools for the range's class,
take the register or fall back to spillAtInterval; a range left spilled
is recorded and skipped (the continue), otherwise the allocation is
recorded and the range joins the active set. -/
def regAllocStep (state : RegAllocState) (active : List Nat) (i : Nat) :
    Option (RegAllocState × List Nat) :=
  let lr0 := state.ranges.getD i {}
  let ea := expireOldIntervals state active lr0.start
  let ra := if lr0.reg_class = RegClass.gp then allocGPReg ea.1
            else allocFPReg ea.1
  match ra.1 with
  | some reg =>
    let newAlloc : RegAlloc :=
      { is_spill := false, loc := .reg reg, reg_class := lr0.reg_class }
    let lr := { lr0 with alloc := newAlloc }
    let state3 := { ra.2 with
      ranges := ra.2.ranges.set i lr,
      ssa_to_reg := if lr.ssa_id < ra.2.ssa_to_reg.length then
          ra.2.ssa_to_reg.set lr.ssa_id newAlloc
        else ra.2.ssa_to_reg }
    some (state3, activeInsert ea.2 i state3.ranges)
  | none =>
    match spillAtInterval ra.2 ea.2 i with
    | none => none
    | some (state3, active2) => some (regAllocFinish state3 active2 i)

/-- The for loop of regAllocRun, with the remaining iteration count as
fuel (i counts up, fuel counts down). -/
def regAllocLoop (state : RegAllocState) (active : List Nat) (i : Nat) :
    Nat → Option (RegAllocState × List Nat)
  | 0 => some (state, active)
  | fuel + 1 =>
    match regAllocStep state active i with
    | none => none
    | some (st2, act2) => regAllocLoop st2 act2 (i + 1) fuel

/-- regAllocRun from wren_jit_regalloc.c: linear scan over the ranges in
order, starting from an empty active set. -/
def regAllocRun (state : RegAllocState) : Option RegAllocState :=
  (regAllocLoop state [] 0 state.ranges.length).map (fun r => r.1)

/-- Two live ranges overlap when their [start, end] intervals intersect. -/
def rangesOverlap (a b : LiveRange) : Prop :=
  a.start ≤ b.stop ∧ b.start ≤ a.stop

/-- A register (of a class) is held by some member of the active set. -/
def holdsReg (ranges : List LiveRange) (active : List Nat)
    (rc : RegClass) (r : Nat) : Prop :=
  ∃ p ∈ active, (ranges.getD p {}).reg_class = rc ∧
    (ranges.getD p {}).alloc.loc.regVal = r

/-- The inductive invariant of the linear scan, relative to the initial
range array R0 and the number k of ranges processed so far: the range
array keeps its shape (only alloc fields change); the active set holds
distinct processed, unspilled ranges whose allocation class matches their
range class; every processed unspilled range is either active or ends
before every still-unprocessed range starts; a free pool entry is held by
no active range; active ranges of one class hold distinct registers; and
any two processed, unspilled, overlapping ranges of one class hold
distinct registers (the claimed post-condition, accumulated). -/
structure LSInv (R0 : List LiveRange) (st : RegAllocState)
    (act : List Nat) (k : Nat) : Prop where
  len_eq : st.ranges.length = R0.length
  gp_len : st.gp_scratch_free.length = GP_SCRATCH_COUNT
  fps_len : st.fp_scratch_free.length = FP_SCRATCH_COUNT
  fpv_len : st.fp_saved_free.length = FP_SAVED_COUNT
  shape : ∀ p : Nat, (st.ranges.getD p {}).start = (R0.getD p {}).start ∧
      (st.ranges.getD p {}).stop = (R0.getD p {}).stop ∧
      (st.ranges.getD p {}).reg_class = (R0.getD p {}).reg_class
  act_lt : ∀ p ∈ act, p < k
  act_nodup : act.Nodup
  act_nonspill : ∀ p ∈ act, (st.ranges.getD p {}).alloc.is_spill = false
  act_class : ∀ p ∈ act,
      (st.ranges.getD p {}).alloc.reg_class = (st.ranges.getD p {}).reg_class
  coverage : ∀ p, p < k → (st.ranges.getD p {}).alloc.is_spill = false →
      p ∈ act ∨ ∀ q, k ≤ q → q < R0.length →
        (st.ranges.getD p {}).stop < (R0.getD q {}).start
  free_gp : ∀ r, st.gp_scratch_free.getD r false = true →
      ¬ holdsReg st.ranges act RegClass.gp r
  free_fps : ∀ j, st.fp_scratch_free.getD j false = true →
      ¬ holdsReg st.ranges act RegClass.fp (FP_SCRATCH_BASE + j)
  free_fpv : ∀ j, st.fp_saved_free.getD j false = true →
      ¬ holdsReg st.ranges act RegClass.fp (FP_SAVED_BASE + j)
  uniq : ∀ p ∈ act, ∀ q ∈ act, p ≠ q →
      (st.ranges.getD p {}).reg_class = (st.ranges.getD q {}).reg_class →
      (st.ranges.getD p {}).alloc.loc.regVal ≠
        (st.ranges.getD q {}).alloc.loc.regVal
  safety : ∀ p, p < k → ∀ q, q < k → p ≠ q →
      (st.ranges.getD p {}).alloc.is_spill = false →
      (st.ranges.getD q {}).alloc.is_spill = false →
      (st.ranges.getD p {}).reg_class = (st.ranges.getD q {}).reg_class →
      rangesOverlap (st.ranges.getD p {}) (st.ranges.getD q {}) →
      (st.ranges.getD p {}).alloc.loc.regVal ≠
        (st.ranges.getD q {}).alloc.loc.regVal

/-- A three-range input for the allocator built on regAllocInit: two
overlapping GP ranges and a later FP range, sorted by start point. -/
def c5State : RegAllocState :=
  { regAllocInit 8 with ranges :=
      [{ ssa_id := 2, start := 0, stop := 5, reg_class := .gp },
       { ssa_id := 3, start := 1, stop := 4, reg_class := .gp },
       { ssa_id := 5, start := 6, stop := 9, reg_class := .fp }] }

/-! # Theorems for the claims -/

/-- C3: the optimizer pipeline of irOptimize never runs the loop-variable
promotion pass at all — its first pass is box/unbox elimination and
irOptPromoteLoopVars appears nowhere in the sequence (the function is
declared in wren_jit_opt.h as mandatory pass 0 but is neither defined nor
called anywhere in the repository). -/
theorem c3_pipeline_omits_loop_var_promotion :
    irOptimizePasses.head? = some OptPass.boxUnboxElim ∧
    OptPass.promoteLoopVars ∉ irOptimizePasses := by
  decide

/-- C9 counterexample: the GVN hash table of irOptGVN has fixed size 2048,
which is smaller than twice the IR node cap (2 x 4096 = 8192), refuting the
claimed bound table size >= 2 x 4096. -/
theorem c9_gvn_table_smaller_than_twice_node_cap :
    GVN_TABLE_SIZE < 2 * IR_MAX_NODES := by
  decide

/-- C9 amended: the GVN pass uses a fixed-size open-addressed table with
linear probing — the probe at step p lands on (h + p) mod table size — and
the table size is 2048, i.e. half the IR node cap of 4096, not at least
twice it. -/
theorem c9_gvn_table_size_amended :
    GVN_TABLE_SIZE = 2048 ∧ 2 * GVN_TABLE_SIZE = IR_MAX_NODES ∧
    ∀ h p : Nat, gvnProbeIdx h p = (h + p) % GVN_TABLE_SIZE := by
  refine ⟨rfl, rfl, fun h p => ?_⟩
  show (h + p) &&& GVN_TABLE_MASK = (h + p) % GVN_TABLE_SIZE
  have hm : GVN_TABLE_MASK = 2 ^ 11 - 1 := by norm_num [GVN_TABLE_MASK, GVN_TABLE_SIZE]
  have hs : GVN_TABLE_SIZE = 2 ^ 11 := by norm_num [GVN_TABLE_SIZE]
  rw [hm, hs]
  apply Nat.eq_of_testBit_eq
  intro k
  rw [Nat.testBit_land, Nat.testBit_mod_two_pow, Nat.testBit_two_pow_sub_one,
      Bool.and_comm]

/-- C2: irOptLICM violates the aliasing rule.  In licmAliasExample the loop
body (strictly between the loop header at index 1 and the loop back at
index 4) holds a LOAD_STACK of slot 0 at index 2 and a STORE_STACK to the
same slot 0 at index 3; the pass nevertheless moves the load into the
pre-header NOP slot at index 0 and kills the body copy, so the hoisted load
no longer observes the store of the previous iteration. -/
theorem c2_licm_hoists_aliased_load_stack :
    (licmAliasExample.node 0).op = .nop ∧
    findLoopHeader licmAliasExample = 1 ∧
    findLoopBack licmAliasExample = 4 ∧
    (licmAliasExample.node 2).op = .load_stack ∧
    (licmAliasExample.node 2).imm.getSlot = 0 ∧
    (licmAliasExample.node 3).op = .store_stack ∧
    (licmAliasExample.node 3).imm.getSlot = 0 ∧
    ((irOptLICM licmAliasExample).node 0).op = .load_stack ∧
    ((irOptLICM licmAliasExample).node 0).imm.getSlot = 0 ∧
    ((irOptLICM licmAliasExample).node 0).flags.hoisted = true ∧
    ((irOptLICM licmAliasExample).node 2).op = .nop ∧
    ((irOptLICM licmAliasExample).node 2).flags.dead = true := by
  decide

/-- Helper: the entry-copy loop never grows a snapshot past the larger of
its current size and the 64-entry cap. -/
theorem codegenCopyEntries_length_le (ir : IRBuffer) (start : Nat) :
    ∀ (remaining e : Nat) (js : JitSnapshot),
      (codegenCopyEntries ir start e remaining js).entries.length ≤
        max js.entries.length JIT_MAX_SNAPSHOT_ENTRIES := by
  intro remaining
  induction remaining with
  | zero => intro e js; simp [codegenCopyEntries]
  | succ r ih =>
    intro e js
    rw [codegenCopyEntries]
    by_cases hbreak : ir.snapshot_entry_count ≤ start + e
    · simp [hbreak]
    · simp only [hbreak, if_false]
      rw [jitSnapshotAddEntry]
      by_cases hfull : JIT_MAX_SNAPSHOT_ENTRIES ≤ js.entries.length
      · simpa [hfull] using ih (e + 1) js
      · simp only [hfull, if_false]
        refine le_trans (ih (e + 1) _) ?_
        simp only [List.length_append, List.length_cons, List.length_nil]
        omega

/-- Helper: when the walked window lies inside the entry pool, the copy loop
appends exactly the next min(remaining, 64 - current size) pool entries. -/
theorem codegenCopyEntries_spec (ir : IRBuffer) (start : Nat) :
    ∀ (remaining e : Nat) (js : JitSnapshot),
      start + e + remaining ≤ ir.snapshot_entry_count →
      (codegenCopyEntries ir start e remaining js).entries =
        js.entries ++
          ((((ir.snapshot_entries.drop (start + e)).take remaining).take
              (JIT_MAX_SNAPSHOT_ENTRIES - js.entries.length)).map toJitEntry) := by
  intro remaining
  induction remaining with
  | zero => intro e js _; simp [codegenCopyEntries]
  | succ r ih =>
    intro e js hle
    have hidx : start + e < ir.snapshot_entry_count := by omega
    have hbreak : ¬ ir.snapshot_entry_count ≤ start + e := by omega
    have hdrop : ir.snapshot_entries.drop (start + e) =
        ir.snapshot_entries[start + e] ::
          ir.snapshot_entries.drop (start + e + 1) :=
      List.drop_eq_getElem_cons hidx
    rw [codegenCopyEntries]
    simp only [hbreak, if_false]
    rw [jitSnapshotAddEntry]
    by_cases hfull : JIT_MAX_SNAPSHOT_ENTRIES ≤ js.entries.length
    · simp only [hfull, if_true]
      have hz : JIT_MAX_SNAPSHOT_ENTRIES - js.entries.length = 0 := by omega
      have hrec := ih (e + 1) js (by omega)
      rw [show start + (e + 1) = start + e + 1 from rfl] at hrec
      rw [hrec, hz]
      simp
    · simp only [hfull, if_false]
      have hget : ir.snapshot_entries.getD (start + e)
          { slot := 0, ssa_ref := 0 } = ir.snapshot_entries[start + e] :=
        List.getD_eq_getElem _ _ hidx
      have hsub : JIT_MAX_SNAPSHOT_ENTRIES - js.entries.length =
          (JIT_MAX_SNAPSHOT_ENTRIES - (js.entries.length + 1)) + 1 := by omega
      have hrec := ih (e + 1)
        { js with entries := js.entries ++
            [{ stack_slot := (ir.snapshot_entries[start + e]).slot,
               ssa_ref := (ir.snapshot_entries[start + e]).ssa_ref }] }
        (by omega)
      rw [show start + (e + 1) = start + e + 1 from rfl] at hrec
      simp only [List.length_append, List.length_cons, List.length_nil,
                 Nat.zero_add] at hrec
      rw [hget, hrec, hsub, hdrop, List.take_succ_cons, List.take_succ_cons,
          List.map_cons]
      simp [toJitEntry]

/-- C10: every snapshot of a compiled trace holds at most 64 entries.  The
deoptimization table built by wrenJitCodegen caps each snapshot at
JIT_MAX_SNAPSHOT_ENTRIES = 64; jitSnapshotAddEntry rejects every entry once
the snapshot is full, returning false and leaving the snapshot unchanged;
the code generator ignores that result, so when an IR snapshot recorded
more than 64 entries the copied snapshot holds exactly the first 64 and the
excess entries are silently dropped. -/
theorem c10_snapshot_entries_capped (ir : IRBuffer) :
    (∀ js ∈ codegenCopySnapshots ir,
        js.entries.length ≤ JIT_MAX_SNAPSHOT_ENTRIES) ∧
    (∀ (snap : JitSnapshot) (slot ssa : Nat),
        JIT_MAX_SNAPSHOT_ENTRIES ≤ snap.entries.length →
        jitSnapshotAddEntry snap slot ssa = (false, snap)) ∧
    (∀ irSnap : IRSnapshot,
        irSnap.entry_start + irSnap.num_entries ≤ ir.snapshot_entry_count →
        (codegenCopySnapshot ir irSnap).entries =
          (((ir.snapshot_entries.drop irSnap.entry_start).take
              irSnap.num_entries).take JIT_MAX_SNAPSHOT_ENTRIES).map
            toJitEntry) := by
  refine ⟨?_, ?_, ?_⟩
  · intro js hjs
    rcases List.mem_map.mp hjs with ⟨s, _, rfl⟩
    have h := codegenCopyEntries_length_le ir s.entry_start s.num_entries 0
      (jitSnapshotInit s.resume_pc s.stack_depth)
    simpa [codegenCopySnapshot, jitSnapshotInit] using h
  · intro snap slot ssa h
    simp [jitSnapshotAddEntry, h]
  · intro irSnap h
    have hspec := codegenCopyEntries_spec ir irSnap.entry_start
      irSnap.num_entries 0 (jitSnapshotInit irSnap.resume_pc irSnap.stack_depth)
      (by simpa using h)
    simpa [codegenCopySnapshot, jitSnapshotInit] using hspec

/-- C10 witness: the concrete buffer c10ExampleIR records 70 entries in its
snapshot; the compiled copy keeps exactly the first 64. -/
theorem c10_snapshot_entries_capped_witness :
    (c10ExampleSnap.entry_start + c10ExampleSnap.num_entries ≤
        c10ExampleIR.snapshot_entry_count) ∧
    (codegenCopySnapshot c10ExampleIR c10ExampleSnap).entries =
      (((c10ExampleIR.snapshot_entries.drop c10ExampleSnap.entry_start).take
          c10ExampleSnap.num_entries).take JIT_MAX_SNAPSHOT_ENTRIES).map
        toJitEntry :=
  ⟨by decide,
   (c10_snapshot_entries_capped c10ExampleIR).2.2 c10ExampleSnap (by decide)⟩

/-- Helper: no dispatch case touches the instruction counter. -/
theorem recorderDispatch_instr_count (jit : WrenJitState) (r : JitRecorder)
    (op : Code) :
    ((recorderDispatch jit r op).2.2).instr_count = r.instr_count := by
  cases op <;>
    simp only [recorderDispatch, stepLoadLocal, slotSet, jitRecorderAbort] <;>
    split_ifs <;> rfl

/-- Helper: a step on an unaborted recorder increments the instruction
counter by exactly one, whatever the opcode and outcome. -/
theorem jitRecorderStep_instr_count (jit : WrenJitState) (r : JitRecorder)
    (op : Code) (hab : r.aborted = false) :
    ((jitRecorderStep jit r op).2.2).instr_count = r.instr_count + 1 := by
  obtain ⟨ir, anchor, sm, sl, ns, st, ic, cd, ab, ar⟩ := r
  simp only at hab
  subst hab
  rcases hrec : recorderDispatch jit
      { ir := ir, anchor_pc := anchor, slot_map := sm, slot_live := sl,
        num_slots := ns, stack_top := st, instr_count := ic + 1,
        call_depth := cd, aborted := false, abort_reason := ar } op
    with ⟨done, jit2, r2⟩
  have hd := recorderDispatch_instr_count jit
      { ir := ir, anchor_pc := anchor, slot_map := sm, slot_live := sl,
        num_slots := ns, stack_top := st, instr_count := ic + 1,
        call_depth := cd, aborted := false, abort_reason := ar } op
  rw [hrec] at hd
  simp only at hd
  simp only [jitRecorderStep, Bool.false_eq_true, if_false, hrec]
  split_ifs <;> simp [jitRecorderAbort, hd]

/-- Helper: the step taken with the counter already at the maximum (the
1001st recorded instruction) aborts before dispatching: the recorder is
flagged with reason trace too long, the JIT goes idle and the aborted-trace
counter is bumped; nothing else of the JIT state changes. -/
theorem jitRecorderStep_at_limit (jit : WrenJitState) (r : JitRecorder)
    (op : Code) (hab : r.aborted = false)
    (hcnt : r.instr_count = JIT_TRACE_MAX_INSNS) :
    jitRecorderStep jit r op =
      (false,
       { jit with state := .idle,
                  traces_aborted := jit.traces_aborted + 1 },
       { r with instr_count := JIT_TRACE_MAX_INSNS + 1, aborted := true,
                abort_reason := some .traceTooLong }) := by
  obtain ⟨ir, anchor, sm, sl, ns, st, ic, cd, ab, ar⟩ := r
  simp only at hab hcnt
  subst hab
  subst hcnt
  simp [jitRecorderStep, jitRecorderAbort]

/-- Helper: a neutral run leaves the recorder unaborted with the counter
advanced by exactly the number of recorded instructions. -/
theorem runRecorder_neutral :
    ∀ (ops : List Code) (jit : WrenJitState) (r : JitRecorder),
      r.aborted = false → NeutralRun jit r ops →
      ((runRecorder jit r ops).2).aborted = false ∧
      ((runRecorder jit r ops).2).instr_count =
        r.instr_count + ops.length := by
  intro ops
  induction ops with
  | nil => intro jit r hab _; simpa [runRecorder] using hab
  | cons op ops ih =>
    intro jit r hab hn
    obtain ⟨h1, h2, h3⟩ := hn
    have hcount := jitRecorderStep_instr_count jit r op hab
    rcases hstep : jitRecorderStep jit r op with ⟨b, jit2, r2⟩
    rw [hstep] at h2 h3 hcount
    simp only at h2 h3 hcount
    have hrest := ih jit2 r2 h2 h3
    simp only [runRecorder, hstep]
    refine ⟨hrest.1, ?_⟩
    rw [hrest.2, hcount]
    simp [List.length_cons]
    omega

/-- Helper: slotSet never touches the abort flag, the instruction counter
or the call depth. -/
theorem slotSet_preserves (r : JitRecorder) (slot ssa : Nat) :
    (slotSet r slot ssa).aborted = r.aborted ∧
    (slotSet r slot ssa).instr_count = r.instr_count ∧
    (slotSet r slot ssa).call_depth = r.call_depth := by
  simp only [slotSet]
  split_ifs <;> exact ⟨rfl, rfl, rfl⟩

/-- Helper: the slot-map pre-population loop of jitRecorderStart preserves
the abort flag, the instruction counter and the call depth. -/
theorem foldLoad_preserves :
    ∀ (l : List Nat) (r : JitRecorder),
      ((l.foldl (fun r s =>
          let (ssa, ir) := irEmitLoad r.ir s
          slotSet { r with ir := ir } s ssa) r)).aborted = r.aborted ∧
      ((l.foldl (fun r s =>
          let (ssa, ir) := irEmitLoad r.ir s
          slotSet { r with ir := ir } s ssa) r)).instr_count = r.instr_count ∧
      ((l.foldl (fun r s =>
          let (ssa, ir) := irEmitLoad r.ir s
          slotSet { r with ir := ir } s ssa) r)).call_depth = r.call_depth := by
  intro l
  induction l with
  | nil => intro r; exact ⟨rfl, rfl, rfl⟩
  | cons s rest ih =>
    intro r
    simp only [List.foldl_cons]
    refine ⟨?_, ?_, ?_⟩
    · rw [(ih _).1]
      simp only [irEmitLoad, slotSet]
      split_ifs <;> rfl
    · rw [(ih _).2.1]
      simp only [irEmitLoad, slotSet]
      split_ifs <;> rfl
    · rw [(ih _).2.2]
      simp only [irEmitLoad, slotSet]
      split_ifs <;> rfl

/-- Helper: jitRecorderStart hands out a recorder with the abort flag
clear and both the instruction counter and the call depth at zero. -/
theorem jitRecorderStart_fresh (jit0 : WrenJitState)
    (anchor num_slots preHeader : Nat) :
    ((jitRecorderStart jit0 anchor num_slots preHeader).2).aborted = false ∧
    ((jitRecorderStart jit0 anchor num_slots preHeader).2).instr_count = 0 ∧
    ((jitRecorderStart jit0 anchor num_slots preHeader).2).call_depth = 0 := by
  simp only [jitRecorderStart]
  refine ⟨?_, ?_, ?_⟩
  · rw [(foldLoad_preserves _ _).1]
  · rw [(foldLoad_preserves _ _).2.1]
  · rw [(foldLoad_preserves _ _).2.2]

/-- Helper: below the instruction limit, a CODE_NULL step is neutral. -/
theorem jitRecorderStep_code_null (jit : WrenJitState) (r : JitRecorder)
    (hab : r.aborted = false) (hcnt : r.instr_count < JIT_TRACE_MAX_INSNS)
    (hcd : r.call_depth ≤ JIT_TRACE_MAX_CALL_DEPTH) :
    (jitRecorderStep jit r .code_null).1 = false ∧
    ((jitRecorderStep jit r .code_null).2.2).aborted = false ∧
    ((jitRecorderStep jit r .code_null).2.2).instr_count =
      r.instr_count + 1 ∧
    ((jitRecorderStep jit r .code_null).2.2).call_depth = r.call_depth := by
  obtain ⟨ir, anchor, sm, sl, ns, st, ic, cd, ab, ar⟩ := r
  simp only at hab hcnt hcd
  subst hab
  have h1 : ¬ JIT_TRACE_MAX_INSNS < ic + 1 := by omega
  simp only [jitRecorderStep, Bool.false_eq_true, if_false, h1,
             recorderDispatch, irEmitConstNull, slotSet]
  split_ifs <;> simp_all <;> omega

/-- Helper: any number of CODE_NULL instructions that fits under the
instruction limit forms a neutral run. -/
theorem neutralRun_replicate_null :
    ∀ (n : Nat) (jit : WrenJitState) (r : JitRecorder),
      r.aborted = false → r.instr_count + n ≤ JIT_TRACE_MAX_INSNS →
      r.call_depth ≤ JIT_TRACE_MAX_CALL_DEPTH →
      NeutralRun jit r (List.replicate n .code_null) := by
  intro n
  induction n with
  | zero => intro jit r _ _ _; simp [NeutralRun]
  | succ m ih =>
    intro jit r hab hcnt hcd
    rw [List.replicate_succ]
    have hstep := jitRecorderStep_code_null jit r hab (by omega) hcd
    exact ⟨hstep.1, hstep.2.1,
           ih _ _ hstep.2.1 (by rw [hstep.2.2.1]; omega)
             (by rw [hstep.2.2.2]; omega)⟩

/-- C6: for every recording that neither closes the loop nor aborts for
another reason (a neutral run), the recorder aborts exactly when the
instruction count reaches JIT_TRACE_MAX_INSNS + 1: after n neutral steps
the count is n and the recorder is not aborted, and once the count stands
at the maximum the very next step — the 1001st recorded instruction,
whatever its opcode — aborts with the descriptive reason trace too long.
Every abort (jitRecorderAbort) increments the aborted-trace counter and
returns the JIT to the idle state while leaving the trace table, the trace
count and the compiled-trace counter untouched, so no trace is
installed. -/
theorem c6_recorder_aborts_exactly_at_limit (jit : WrenJitState)
    (r : JitRecorder) (ops : List Code) (hab : r.aborted = false)
    (hzero : r.instr_count = 0) (hn : NeutralRun jit r ops) :
    ((runRecorder jit r ops).2).aborted = false ∧
    ((runRecorder jit r ops).2).instr_count = ops.length ∧
    (ops.length = JIT_TRACE_MAX_INSNS → ∀ op : Code,
        jitRecorderStep (runRecorder jit r ops).1 (runRecorder jit r ops).2
            op =
          (false,
           { (runRecorder jit r ops).1 with
               state := .idle,
               traces_aborted :=
                 ((runRecorder jit r ops).1).traces_aborted + 1 },
           { (runRecorder jit r ops).2 with
               instr_count := JIT_TRACE_MAX_INSNS + 1,
               aborted := true,
               abort_reason := some .traceTooLong })) ∧
    (∀ (jit2 : WrenJitState) (r2 : JitRecorder) (reason : AbortReason),
        (jitRecorderAbort jit2 r2 reason).1.traces = jit2.traces ∧
        (jitRecorderAbort jit2 r2 reason).1.trace_count = jit2.trace_count ∧
        (jitRecorderAbort jit2 r2 reason).1.traces_compiled =
          jit2.traces_compiled ∧
        (jitRecorderAbort jit2 r2 reason).1.state = .idle ∧
        (jitRecorderAbort jit2 r2 reason).1.traces_aborted =
          jit2.traces_aborted + 1 ∧
        (jitRecorderAbort jit2 r2 reason).2.aborted = true) := by
  have hrun := runRecorder_neutral ops jit r hab hn
  rw [hzero, Nat.zero_add] at hrun
  refine ⟨hrun.1, hrun.2, ?_, ?_⟩
  · intro hlen op
    exact jitRecorderStep_at_limit _ _ op hrun.1 (by rw [hrun.2, hlen])
  · intro jit2 r2 reason
    exact ⟨rfl, rfl, rfl, rfl, rfl, rfl⟩

/-- C6 witness: a fresh recorder fed 1000 CODE_NULL instructions reaches
count 1000 unaborted, and the 1001st step aborts as described. -/
theorem c6_recorder_aborts_exactly_at_limit_witness :
    ((runRecorder (jitRecorderStart {} 5 0 2).1 (jitRecorderStart {} 5 0 2).2
        (List.replicate JIT_TRACE_MAX_INSNS Code.code_null)).2).instr_count =
      (List.replicate JIT_TRACE_MAX_INSNS Code.code_null).length ∧
    (∀ op : Code,
      jitRecorderStep
          (runRecorder (jitRecorderStart {} 5 0 2).1
            (jitRecorderStart {} 5 0 2).2
            (List.replicate JIT_TRACE_MAX_INSNS Code.code_null)).1
          (runRecorder (jitRecorderStart {} 5 0 2).1
            (jitRecorderStart {} 5 0 2).2
            (List.replicate JIT_TRACE_MAX_INSNS Code.code_null)).2 op =
        (false,
         { (runRecorder (jitRecorderStart {} 5 0 2).1
              (jitRecorderStart {} 5 0 2).2
              (List.replicate JIT_TRACE_MAX_INSNS Code.code_null)).1 with
             state := .idle,
             traces_aborted :=
               ((runRecorder (jitRecorderStart {} 5 0 2).1
                  (jitRecorderStart {} 5 0 2).2
                  (List.replicate JIT_TRACE_MAX_INSNS Code.code_null)).1).traces_aborted
                 + 1 },
         { (runRecorder (jitRecorderStart {} 5 0 2).1
              (jitRecorderStart {} 5 0 2).2
              (List.replicate JIT_TRACE_MAX_INSNS Code.code_null)).2 with
             instr_count := JIT_TRACE_MAX_INSNS + 1,
             aborted := true,
             abort_reason := some .traceTooLong })) :=
  have h := c6_recorder_aborts_exactly_at_limit
    (jitRecorderStart {} 5 0 2).1 (jitRecorderStart {} 5 0 2).2
    (List.replicate JIT_TRACE_MAX_INSNS Code.code_null)
    (jitRecorderStart_fresh {} 5 0 2).1
    (jitRecorderStart_fresh {} 5 0 2).2.1
    (neutralRun_replicate_null JIT_TRACE_MAX_INSNS _ _
      (jitRecorderStart_fresh {} 5 0 2).1
      (by rw [(jitRecorderStart_fresh {} 5 0 2).2.1]; omega)
      (by rw [(jitRecorderStart_fresh {} 5 0 2).2.2]; omega))
  ⟨h.2.1, h.2.2.1 (by simp)⟩
theorem list_set_append_len {α : Type} (l : List α) (a b : α) :
    (l ++ [a]).set l.length b = l ++ [b] := by
  induction l with
  | nil => rfl
  | cons x xs ih => simp [List.set, ih]

theorem list_getD_append_len {α : Type} (l : List α) (a d : α) :
    (l ++ [a]).getD l.length d = a := by
  induction l with
  | nil => rfl
  | cons x xs ih => simpa using ih

theorem irEmit_eq (buf : IRBuffer) (op : IROp) (a b : Nat) (ty : IRType) :
    irEmit buf op a b ty =
      { buf with nodes := buf.nodes ++
          [{ op := op, id := buf.nodes.length, op1 := a, op2 := b,
             type := ty }] } := rfl

theorem irSetImmLast_append (l : List IRNode) (n : IRNode)
    (snaps : List IRSnapshot) (entries : List IRSnapshotEntry) (lh : Nat)
    (imm : Imm) :
    irSetImmLast { nodes := l ++ [n], snapshots := snaps,
                   snapshot_entries := entries, loop_header := lh } imm =
      { nodes := l ++ [n.withImm imm], snapshots := snaps,
        snapshot_entries := entries, loop_header := lh } := by
  simp [irSetImmLast, list_set_append_len, list_getD_append_len]

theorem irSetGuardFlagLast_append (l : List IRNode) (n : IRNode)
    (snaps : List IRSnapshot) (entries : List IRSnapshotEntry) (lh : Nat) :
    irSetGuardFlagLast { nodes := l ++ [n], snapshots := snaps,
                         snapshot_entries := entries, loop_header := lh } =
      { nodes := l ++ [n.withGuardFlag], snapshots := snaps,
        snapshot_entries := entries, loop_header := lh } := by
  simp [irSetGuardFlagLast, list_set_append_len, list_getD_append_len]

theorem irEmitConst_eq (buf : IRBuffer) (q : Rat) :
    irEmitConst buf q =
      (buf.nodes.length,
       { buf with nodes := buf.nodes ++
           [{ op := .const_num, id := buf.nodes.length, type := .num,
              imm := .num q }] }) := by
  rw [irEmitConst, irEmit_eq, irSetImmLast_append]
  rfl

theorem irEmitUnbox_eq (buf : IRBuffer) (val : Nat) :
    irEmitUnbox buf val =
      (buf.nodes.length,
       { buf with nodes := buf.nodes ++
           [{ op := .unbox_num, id := buf.nodes.length, op1 := val,
              type := .num }] }) := rfl

theorem irEmitBox_eq (buf : IRBuffer) (val : Nat) :
    irEmitBox buf val =
      (buf.nodes.length,
       { buf with nodes := buf.nodes ++
           [{ op := .box_num, id := buf.nodes.length, op1 := val,
              type := .value }] }) := rfl

theorem irEmitGuardNum_eq (buf : IRBuffer) (val snap : Nat) :
    irEmitGuardNum buf val snap =
      (buf.nodes.length,
       { buf with nodes := buf.nodes ++
           [{ op := .guard_num, id := buf.nodes.length, op1 := val,
              imm := .snapshot_id snap, flags := { guard := true } }] }) := by
  rw [irEmitGuardNum, irEmit_eq, irSetImmLast_append, irSetGuardFlagLast_append]
  rfl

theorem irEmitGuardTrue_eq (buf : IRBuffer) (val snap : Nat) :
    irEmitGuardTrue buf val snap =
      (buf.nodes.length,
       { buf with nodes := buf.nodes ++
           [{ op := .guard_true, id := buf.nodes.length, op1 := val,
              imm := .snapshot_id snap, flags := { guard := true } }] }) := by
  rw [irEmitGuardTrue, irEmit_eq, irSetImmLast_append, irSetGuardFlagLast_append]
  rfl

theorem irEmitGuardClass_eq (buf : IRBuffer) (val cls snap : Nat) :
    irEmitGuardClass buf val cls snap =
      (buf.nodes.length,
       { buf with nodes := buf.nodes ++
           [{ op := .guard_class, id := buf.nodes.length, op1 := val,
              op2 := snap, imm := .ptr cls,
              flags := { guard := true } }] }) := by
  rw [irEmitGuardClass, irEmit_eq, irSetImmLast_append, irSetGuardFlagLast_append]
  rfl

theorem irEmitSnapshot_eq (buf : IRBuffer) (pc depth : Nat) :
    irEmitSnapshot buf pc depth =
      (buf.snapshots.length,
       { buf with
           snapshots := buf.snapshots ++
             [{ resume_pc := pc, num_entries := 0,
                entry_start := buf.snapshot_entries.length,
                stack_depth := depth }],
           nodes := buf.nodes ++
             [{ op := .snapshot, id := buf.nodes.length,
                imm := .snapshot_id buf.snapshots.length }] }) := by
  rw [irEmitSnapshot]
  simp only [IRBuffer.snapshot_count, IRBuffer.snapshot_entry_count, irEmit_eq,
             irSetImmLast_append, IRNode.withImm]

theorem irSnapshotAddEntry_append (nodes : List IRNode)
    (S : List IRSnapshot) (s : IRSnapshot) (E : List IRSnapshotEntry)
    (lh slot ref : Nat) :
    irSnapshotAddEntry { nodes := nodes, snapshots := S ++ [s],
                         snapshot_entries := E, loop_header := lh }
        S.length slot ref =
      { nodes := nodes,
        snapshots := S ++ [{ s with num_entries := s.num_entries + 1 }],
        snapshot_entries := E ++ [{ slot := slot, ssa_ref := ref }],
        loop_header := lh } := by
  simp [irSnapshotAddEntry, list_set_append_len, list_getD_append_len]





theorem widenSlotGet_mk (ir : IRBuffer) (anchor : Nat) (sm : List Nat)
    (sl : List Bool) (ns st ic cd : Nat) (ab : Bool)
    (ar : Option AbortReason) (slot : Nat) :
    widenSlotGet ⟨ir, anchor, sm, sl, ns, st, ic, cd, ab, ar⟩ slot =
      (if slot < JIT_TRACE_MAX_SLOTS ∧ sl.getD slot false then sm.getD slot 0
       else IR_NONE) := rfl

set_option maxHeartbeats 800000 in
theorem inlineRangeIterate_mk (range : ObjRange) (ir : IRBuffer)
    (anchor : Nat) (sm : List Nat) (sl : List Bool) (ns ic cd : Nat)
    (ab : Bool) (ar : Option AbortReason) (snap a b : Nat) :
    inlineRangeIterate ⟨ir, anchor, sm, sl, ns, 2, ic, cd, ab, ar⟩ range
        0 snap a b =
      (true,
       ⟨{ ir with nodes := ir.nodes ++
            [{ op := .guard_num, id := ir.nodes.length, op1 := b,
               imm := .snapshot_id snap, flags := { guard := true } },
             { op := .unbox_num, id := ir.nodes.length + 1, op1 := b,
               type := .num },
             { op := .const_num, id := ir.nodes.length + 2, type := .num,
               imm := .num (if decide (range.from_ ≤ range.to_)
                            then 1 else -1) },
             { op := .add, id := ir.nodes.length + 3,
               op1 := ir.nodes.length + 1, op2 := ir.nodes.length + 2,
               type := .num },
             { op := .const_num, id := ir.nodes.length + 4, type := .num,
               imm := .num range.to_ },
             { op := (if decide (range.from_ ≤ range.to_) then
                        (if range.isInclusive then IROp.lte else IROp.lt)
                      else
                        (if range.isInclusive then IROp.gte else IROp.gt)),
               id := ir.nodes.length + 5, op1 := ir.nodes.length + 3,
               op2 := ir.nodes.length + 4, type := .bool },
             { op := .box_bool, id := ir.nodes.length + 6,
               op1 := ir.nodes.length + 5, type := .value },
             { op := .guard_true, id := ir.nodes.length + 7,
               op1 := ir.nodes.length + 6, imm := .snapshot_id snap,
               flags := { guard := true } },
             { op := .box_num, id := ir.nodes.length + 8,
               op1 := ir.nodes.length + 3, type := .value }] },
        anchor, sm.set 0 (ir.nodes.length + 8), (sl.set 1 false).set 0 true,
        (if ns < 1 then 1 else ns), 1, ic, cd, ab, ar⟩) := by
  simp only [inlineRangeIterate, irEmitGuardNum_eq, irEmitUnbox_eq,
             irEmitConst_eq, irEmit_eq, IRBuffer.count, irEmitGuardTrue_eq,
             irEmitBox_eq, List.length_append, List.length_cons,
             List.length_nil, widenSlotSet, slotSet]
  simp +arith [List.append_assoc, JIT_TRACE_MAX_SLOTS]

set_option maxHeartbeats 2000000 in
/-- C7: when the recorder widens a call to Range.iterate(_) on a two-slot
frame whose receiver (slot 0) and iterator argument (slot 1) hold live SSA
values a and b, jitTryWidenCall1 succeeds and emits, in order: a SNAPSHOT
(whose record covers both live slots), a GUARD_CLASS on the receiver against
the range class, a GUARD_NUM on the iterator argument, an UNBOX_NUM, the
step constant (+1 for an ascending range, -1 otherwise), an ADD, the bound
constant, the direction-and-inclusivity-selected compare (LTE/LT/GTE/GT), a
BOX_BOOL, a GUARD_TRUE on the compare, and a BOX_NUM of the sum; slot 0 is
remapped to the boxed sum, slot 1 is killed, and the stack shrinks to one
slot -- the inline expansion of the interpreter's range-iteration fast path
claimed by the specification. -/
theorem c7_range_iterate_emission (r : JitRecorder) (range : ObjRange)
    (ip cls a b : Nat)
    (hab : r.aborted = false)
    (hst : r.stack_top = 2)
    (hlive0 : r.slot_live.getD 0 false = true)
    (hlive1 : r.slot_live.getD 1 false = true)
    (hmap0 : r.slot_map.getD 0 0 = a)
    (hmap1 : r.slot_map.getD 1 0 = b)
    (ha : a ≠ IR_NONE)
    (hb : b ≠ IR_NONE) :
    jitTryWidenCall1 r true range true false ip cls =
      (true,
       ⟨{ nodes := r.ir.nodes ++
            [{ op := .snapshot, id := r.ir.nodes.length,
               imm := .snapshot_id r.ir.snapshots.length },
             { op := .guard_class, id := r.ir.nodes.length + 1,
               op1 := a, op2 := r.ir.snapshots.length,
               imm := .ptr cls, flags := { guard := true } },
             { op := .guard_num, id := r.ir.nodes.length + 2, op1 := b,
               imm := .snapshot_id r.ir.snapshots.length,
               flags := { guard := true } },
             { op := .unbox_num, id := r.ir.nodes.length + 3, op1 := b,
               type := .num },
             { op := .const_num, id := r.ir.nodes.length + 4, type := .num,
               imm := .num (if decide (range.from_ ≤ range.to_)
                            then 1 else -1) },
             { op := .add, id := r.ir.nodes.length + 5,
               op1 := r.ir.nodes.length + 3, op2 := r.ir.nodes.length + 4,
               type := .num },
             { op := .const_num, id := r.ir.nodes.length + 6, type := .num,
               imm := .num range.to_ },
             { op := (if decide (range.from_ ≤ range.to_) then
                        (if range.isInclusive then IROp.lte else IROp.lt)
                      else
                        (if range.isInclusive then IROp.gte else IROp.gt)),
               id := r.ir.nodes.length + 7, op1 := r.ir.nodes.length + 5,
               op2 := r.ir.nodes.length + 6, type := .bool },
             { op := .box_bool, id := r.ir.nodes.length + 8,
               op1 := r.ir.nodes.length + 7, type := .value },
             { op := .guard_true, id := r.ir.nodes.length + 9,
               op1 := r.ir.nodes.length + 8,
               imm := .snapshot_id r.ir.snapshots.length,
               flags := { guard := true } },
             { op := .box_num, id := r.ir.nodes.length + 10,
               op1 := r.ir.nodes.length + 5, type := .value }],
          snapshots := r.ir.snapshots ++
            [{ resume_pc := ip, num_entries := 2,
               entry_start := r.ir.snapshot_entries.length,
               stack_depth := 2 }],
          snapshot_entries := r.ir.snapshot_entries ++
            [{ slot := 0, ssa_ref := a }, { slot := 1, ssa_ref := b }],
          loop_header := r.ir.loop_header },
        r.anchor_pc,
        r.slot_map.set 0 (r.ir.nodes.length + 10),
        (r.slot_live.set 1 false).set 0 true,
        (if r.num_slots < 1 then 1 else r.num_slots),
        1, r.instr_count, r.call_depth, r.aborted, r.abort_reason⟩) := by
  have e2 : natRange 0 2 = [0, 1] := rfl
  have h0 : widenEmitSnapshot r ip =
      (r.ir.snapshots.length,
       { r with ir :=
          { nodes := r.ir.nodes ++
              [{ op := .snapshot, id := r.ir.nodes.length,
                 imm := .snapshot_id r.ir.snapshots.length }],
            snapshots := r.ir.snapshots ++
              [{ resume_pc := ip, num_entries := 2,
                 entry_start := r.ir.snapshot_entries.length,
                 stack_depth := 2 }],
            snapshot_entries := r.ir.snapshot_entries ++
              [{ slot := 0, ssa_ref := a }, { slot := 1, ssa_ref := b }],
            loop_header := r.ir.loop_header } }) := by
    simp only [widenEmitSnapshot, irEmitSnapshot_eq, hst, e2, List.foldl_cons,
               List.foldl_nil, hlive0, hlive1, hmap0, hmap1, if_true,
               irSnapshotAddEntry_append]
    simp [List.append_assoc, hst]
  simp +decide only [jitTryWidenCall1, hab, Bool.false_eq_true, if_false, hst,
             Nat.lt_irrefl, h0, if_true, Bool.not_true, Bool.not_false,
             Bool.false_and, widenSlotGet_mk, hlive0, hlive1, hmap0, hmap1,
             JIT_TRACE_MAX_SLOTS, Nat.sub_self, and_true, ha, hb]
  simp only [irEmitGuardClass_eq, IRBuffer.count, List.length_append,
             List.length_cons, List.length_nil, inlineRangeIterate_mk]
  simp +arith [List.append_assoc]

theorem c7_range_iterate_emission_witness :
    (jitTryWidenCall1 c7Rec true ⟨1, 5, true⟩ true false 9 77).1 = true ∧
    (jitTryWidenCall1 c7Rec true ⟨1, 5, true⟩ true false 9 77).2.ir.nodes.length
      = c7Rec.ir.nodes.length + 11 ∧
    (jitTryWidenCall1 c7Rec true ⟨1, 5, true⟩ true false 9 77).2.stack_top = 1 := by
  rw [c7_range_iterate_emission c7Rec ⟨1, 5, true⟩ 9 77 3 4 rfl rfl
      (by decide) (by decide) rfl rfl (by decide) (by decide)]
  refine ⟨rfl, by simp, rfl⟩

theorem foldl_stub_append (l : List Nat) (code : List NInstr) :
    l.foldl (fun c si => c ++ [NInstr.label si, NInstr.ret_imm (si + 1)]) code
      = code ++ l.flatMap (fun si => [NInstr.label si, NInstr.ret_imm (si + 1)]) := by
  induction l generalizing code with
  | nil => simp
  | cons x xs ih => simp [ih]

/-- C1: the side-exit machinery performs no live-value write-back at all.
The stub loop of wrenJitCodegen emits, for every snapshot index si, exactly
a label followed by an immediate return of si + 1 -- no instruction in any
stub writes an interpreter stack slot -- and wrenJitRestoreExit, the only
deoptimization step the runtime performs afterwards, leaves every stack
slot content unchanged (it sets only the resume ip and the stack top).  So
the claim that emitted code writes the snapshot-listed SSA values back to
the stack before the stub returns, leaving nothing but pointer adjustments
to do, is false: no component ever restores the live values. -/
theorem c1_side_exit_stubs_no_writeback (n : Nat) (fiber : ObjFiber)
    (snapshots : List JitSnapshot) (exitIdx : Nat) (out : ObjFiber)
    (h : wrenJitRestoreExit fiber snapshots exitIdx = some out) :
    sideExitStubs n = (natRange 0 n).flatMap
        (fun si => [NInstr.label si, NInstr.ret_imm (si + 1)]) ∧
    (∀ i ∈ sideExitStubs n, i.writesStack = false) ∧
    out.stack = fiber.stack := by
  have hs : sideExitStubs n = (natRange 0 n).flatMap
      (fun si => [NInstr.label si, NInstr.ret_imm (si + 1)]) := by
    simpa [sideExitStubs] using foldl_stub_append (natRange 0 n) []
  refine ⟨hs, ?_, ?_⟩
  · intro i hi
    rw [hs] at hi
    simp only [List.mem_flatMap, List.mem_cons, List.mem_singleton,
               List.not_mem_nil, or_false] at hi
    obtain ⟨a, _, h1 | h1⟩ := hi <;> subst h1 <;> rfl
  · simp only [wrenJitRestoreExit] at h
    split at h
    · cases h; rfl
    · split at h
      · cases h; rfl
      · rcases hg : fiber.frames.getLast? with _ | f <;> simp only [hg] at h
        · exact absurd h (by simp)
        · rw [Option.some.injEq] at h
          subst h
          rfl

theorem c1_side_exit_stubs_no_writeback_witness :
    sideExitStubs 2 = (natRange 0 2).flatMap
        (fun si => [NInstr.label si, NInstr.ret_imm (si + 1)]) ∧
    (∀ i ∈ sideExitStubs 2, i.writesStack = false) ∧
    (⟨[⟨42, 5⟩], [7, 8, 9], 7⟩ : ObjFiber).stack
      = (⟨[⟨0, 5⟩], [7, 8, 9], 3⟩ : ObjFiber).stack :=
  c1_side_exit_stubs_no_writeback 2 ⟨[⟨0, 5⟩], [7, 8, 9], 3⟩
    [{ resume_pc := 42, stack_depth := 2 }] 0 ⟨[⟨42, 5⟩], [7, 8, 9], 7⟩ rfl

/-- C4: integer-typed arithmetic is not lowered to GP operations.  The
register allocator does classify IR_TYPE_INT results as GP
(classifyRegClass), but the IR_ADD/IR_SUB/IR_MUL case of wrenJitCodegen
never reads the node type: the emitted sequence for an
integer-typed node is identical to that for a num-typed one, every emitted
instruction is an FP-pipeline instruction (sljit_emit_fop1/fop2), and the
operation itself is an sljit_emit_fop2 with the SLJIT_ADD_F64 /
SLJIT_SUB_F64 / SLJIT_MUL_F64 opcode.  There is no integer code path, so
the claim that add/sub/mul of integer result type map to GP operations on
GP registers is false. -/
theorem c4_int_arith_lowered_as_fp (ra : List RegAlloc) (n : IRNode)
    (hop : n.op = IROp.add ∨ n.op = IROp.sub ∨ n.op = IROp.mul)
    (htype : n.type = IRType.int) :
    classifyRegClass n.type = RegClass.gp ∧
    (∀ t, emitArith ra { n with type := t } = emitArith ra n) ∧
    (emitArith ra n).all CgInstr.isFPInstr = true ∧
    (∃ dr s1r s2r, CgInstr.fop2 (arithFop n.op) dr 0 s1r 0 s2r 0
        ∈ emitArith ra n) ∧
    (arithFop n.op = .add_f64 ∨ arithFop n.op = .sub_f64 ∨
     arithFop n.op = .mul_f64) := by
  refine ⟨by simp [classifyRegClass, htype], fun t => rfl, ?_, ?_, ?_⟩
  · simp only [emitArith]
    split_ifs <;> simp [CgInstr.isFPInstr]
  · refine ⟨(if (getFP ra n.id).isMem then SljitReg.FR 0
              else (getFP ra n.id).reg),
            (if (getFP ra n.op1).isMem then SljitReg.FR 0
              else (getFP ra n.op1).reg),
            (if (getFP ra n.op2).isMem then SljitReg.FR 1
              else (getFP ra n.op2).reg), ?_⟩
    simp only [emitArith]
    split_ifs <;> simp
  · rcases hop with h | h | h <;> simp [arithFop, h]

theorem c4_int_arith_lowered_as_fp_witness :
    classifyRegClass c4Node.type = RegClass.gp ∧
    (∀ t, emitArith [] { c4Node with type := t } = emitArith [] c4Node) ∧
    (emitArith [] c4Node).all CgInstr.isFPInstr = true ∧
    (∃ dr s1r s2r, CgInstr.fop2 (arithFop c4Node.op) dr 0 s1r 0 s2r 0
        ∈ emitArith [] c4Node) ∧
    (arithFop c4Node.op = .add_f64 ∨ arithFop c4Node.op = .sub_f64 ∨
     arithFop c4Node.op = .mul_f64) :=
  c4_int_arith_lowered_as_fp [] c4Node (Or.inl rfl) rfl

theorem getD_set_self {l : List JitTrace} {i : Nat} (a d : JitTrace)
    (h : i < l.length) : (l.set i a).getD i d = a := by
  rw [List.getD_eq_getElem?_getD, List.getElem?_set_self h]
  rfl

theorem getD_set_ne {l : List JitTrace} {i j : Nat} (a d : JitTrace)
    (h : i ≠ j) : (l.set i a).getD j d = l.getD j d := by
  rw [List.getD_eq_getElem?_getD, List.getElem?_set_ne h,
      ← List.getD_eq_getElem?_getD]

theorem storeProbe_spec (jit : WrenJitState) (trace : JitTrace) (mask : Nat) :
    ∀ fuel idx jit2 ev,
      storeProbe jit trace mask fuel idx = some (jit2, ev) →
      jit2.trace_capacity = jit.trace_capacity ∧
      ∃ k, ((jit.traces.getD k {}).anchor_pc = 0 ∨
            (jit.traces.getD k {}).anchor_pc = trace.anchor_pc) ∧
           jit2.traces = jit.traces.set k trace := by
  intro fuel
  induction fuel with
  | zero =>
    intro idx jit2 ev h
    simp [storeProbe] at h
  | succ n ih =>
    intro idx jit2 ev h
    simp only [storeProbe] at h
    split_ifs at h with h1 h2
    · rw [Option.some.injEq, Prod.mk.injEq] at h
      obtain ⟨hj, -⟩ := h
      subst hj
      exact ⟨rfl, idx, Or.inl h1, rfl⟩
    · rw [Option.some.injEq, Prod.mk.injEq] at h
      obtain ⟨hj, -⟩ := h
      subst hj
      exact ⟨rfl, idx, Or.inr h2, rfl⟩
    · exact ih _ _ _ h

theorem storeProbe_lookupLoop (jit : WrenJitState) (trace : JitTrace)
    (mask : Nat) (hpc : trace.anchor_pc ≠ 0)
    (hlen : ∀ x : Nat, x &&& mask < jit.traces.length) :
    ∀ fuel idx jit2 ev, idx < jit.traces.length →
      storeProbe jit trace mask fuel idx = some (jit2, ev) →
      lookupLoop jit2.traces mask trace.anchor_pc fuel idx = some trace := by
  intro fuel
  induction fuel with
  | zero =>
    intro idx jit2 ev _ h
    simp [storeProbe] at h
  | succ n ih =>
    intro idx jit2 ev hidx h
    simp only [storeProbe] at h
    split_ifs at h with h1 h2
    · rw [Option.some.injEq, Prod.mk.injEq] at h
      obtain ⟨hj, -⟩ := h
      subst hj
      simp only [lookupLoop, getD_set_self _ _ hidx, hpc, if_false]
      simp
    · rw [Option.some.injEq, Prod.mk.injEq] at h
      obtain ⟨hj, -⟩ := h
      subst hj
      simp only [lookupLoop, getD_set_self _ _ hidx, hpc, if_false]
      simp
    · obtain ⟨-, k, hk, htr⟩ := storeProbe_spec jit trace mask n
        ((idx + 1) &&& mask) jit2 ev h
      have hkne : k ≠ idx := by
        intro hke
        subst hke
        rcases hk with hk | hk
        · exact h1 hk
        · exact h2 hk
      have hstep : jit2.traces.getD idx {} = jit.traces.getD idx {} := by
        rw [htr, getD_set_ne _ _ hkne]
      simp only [lookupLoop, hstep, h1, h2, if_false]
      exact ih ((idx + 1) &&& mask) jit2 ev (hlen _) h

theorem growInsert_length (mask : Nat) (t : JitTrace) :
    ∀ fuel idx traces,
      (growInsert mask t traces fuel idx).length = traces.length := by
  intro fuel
  induction fuel with
  | zero => intro idx traces; rfl
  | succ n ih =>
    intro idx traces
    simp only [growInsert]
    split_ifs
    · simp
    · exact ih _ _

theorem foldl_growInsert_length (mask cap : Nat) :
    ∀ (l acc : List JitTrace),
      (l.foldl (fun acc t => if t.anchor_pc = 0 then acc
        else growInsert mask t acc cap (hash_pc t.anchor_pc &&& mask))
        acc).length = acc.length := by
  intro l
  induction l with
  | nil => intro acc; rfl
  | cons x xs ih =>
    intro acc
    simp only [List.foldl_cons]
    rw [ih]
    split_ifs
    · rfl
    · rw [growInsert_length]

theorem grow_wf (jit : WrenJitState) (h : jitTableWF jit) :
    jitTableWF (grow_trace_table jit) := by
  obtain ⟨hlen, k, hk⟩ := h
  refine ⟨?_, k + 1, ?_⟩
  · simp only [grow_trace_table]
    rw [foldl_growInsert_length]
    simp
  · simp only [grow_trace_table, hk, pow_succ, Nat.mul_comm]

theorem lookupLoop_storeProbe (jit : WrenJitState) (t2 : JitTrace)
    (mask : Nat) :
    ∀ fuel idx t1,
      lookupLoop jit.traces mask t2.anchor_pc fuel idx = some t1 →
      ∃ k, storeProbe jit t2 mask fuel idx =
        some ({ jit with traces := jit.traces.set k t2 },
              some (t1.code, t1.snapshots, t1.gc_roots)) := by
  intro fuel
  induction fuel with
  | zero => intro idx t1 h; exact absurd h (by simp [lookupLoop])
  | succ n ih =>
    intro idx t1 h
    have hunf : lookupLoop jit.traces mask t2.anchor_pc (n + 1) idx =
        (if (jit.traces.getD idx {}).anchor_pc = 0 then none
         else if (jit.traces.getD idx {}).anchor_pc = t2.anchor_pc
           then some (jit.traces.getD idx {})
         else lookupLoop jit.traces mask t2.anchor_pc n
                ((idx + 1) &&& mask)) := rfl
    have hunf2 : storeProbe jit t2 mask (n + 1) idx =
        (if (jit.traces.getD idx {}).anchor_pc = 0 then
          some ({ jit with traces := jit.traces.set idx t2,
                           trace_count := jit.trace_count + 1,
                           traces_compiled := jit.traces_compiled + 1 }, none)
         else if (jit.traces.getD idx {}).anchor_pc = t2.anchor_pc then
          some ({ jit with traces := jit.traces.set idx t2 },
                some ((jit.traces.getD idx {}).code,
                      (jit.traces.getD idx {}).snapshots,
                      (jit.traces.getD idx {}).gc_roots))
         else storeProbe jit t2 mask n ((idx + 1) &&& mask)) := rfl
    rw [hunf] at h
    by_cases h1 : (jit.traces.getD idx ({} : JitTrace)).anchor_pc = 0
    · rw [if_pos h1] at h
      exact absurd h (by simp)
    · rw [if_neg h1] at h
      by_cases h2 : (jit.traces.getD idx ({} : JitTrace)).anchor_pc
          = t2.anchor_pc
      · rw [if_pos h2, Option.some.injEq] at h
        refine ⟨idx, ?_⟩
        rw [hunf2, if_neg h1, if_pos h2, h]
      · rw [if_neg h2] at h
        obtain ⟨k, hk⟩ := ih ((idx + 1) &&& mask) t1 h
        refine ⟨k, ?_⟩
        rw [hunf2, if_neg h1, if_neg h2]
        exact hk

theorem store_core (jitp jit2 : WrenJitState) (t1 t2 : JitTrace)
    (ev : Option (Nat × List JitSnapshot × List Nat))
    (hwf : jitTableWF jitp) (hpc1 : t1.anchor_pc ≠ 0)
    (hpc2 : t2.anchor_pc = t1.anchor_pc)
    (h : storeProbe jitp t1 (jitp.trace_capacity - 1) jitp.trace_capacity
          (hash_pc t1.anchor_pc &&& (jitp.trace_capacity - 1))
        = some (jit2, ev)) :
    wrenJitLookup jit2 t1.anchor_pc = some t1 ∧
    (jit2.trace_count * 10 < jit2.trace_capacity * 7 →
     ∃ k, wrenJitStoreTrace jit2 t2 =
            some ({ jit2 with traces := jit2.traces.set k t2 },
                  some (t1.code, t1.snapshots, t1.gc_roots)) ∧
          wrenJitLookup { jit2 with traces := jit2.traces.set k t2 }
              t2.anchor_pc = some t2) := by
  obtain ⟨hlen, k0, hcap⟩ := hwf
  have hpos : 0 < jitp.trace_capacity := by
    rw [hcap]; exact Nat.pow_pos (by norm_num)
  have hlenpr : ∀ x : Nat, x &&& (jitp.trace_capacity - 1)
      < jitp.traces.length := by
    intro x
    rw [hlen]
    have := Nat.and_le_right (n := x) (m := jitp.trace_capacity - 1)
    omega
  obtain ⟨hcap2, k, hk, htr⟩ := storeProbe_spec jitp t1 _ _ _ _ _ h
  have hlk : lookupLoop jit2.traces (jitp.trace_capacity - 1) t1.anchor_pc
      jitp.trace_capacity
      (hash_pc t1.anchor_pc &&& (jitp.trace_capacity - 1)) = some t1 :=
    storeProbe_lookupLoop jitp t1 _ hpc1 hlenpr _ _ _ _ (hlenpr _) h
  have hlen3 : jit2.traces.length = jitp.traces.length := by
    rw [htr]; simp
  have hne : jit2.traces.isEmpty = false := by
    rcases he : jit2.traces with _ | _
    · rw [he] at hlen3; rw [hlen] at hlen3; simp at hlen3; omega
    · rfl
  have hlkup : wrenJitLookup jit2 t1.anchor_pc = some t1 := by
    simp only [wrenJitLookup, hne, Bool.false_eq_true, if_false, hcap2]
    exact hlk
  refine ⟨hlkup, fun hng => ?_⟩
  obtain ⟨k2, hk2⟩ := lookupLoop_storeProbe jit2 t2
      (jitp.trace_capacity - 1) jitp.trace_capacity
      (hash_pc t1.anchor_pc &&& (jitp.trace_capacity - 1)) t1
      (by rw [hpc2]; exact hlk)
  have hlenpr2 : ∀ x : Nat, x &&& (jitp.trace_capacity - 1)
      < jit2.traces.length := by
    intro x; rw [hlen3]; exact hlenpr x
  rw [← hcap2, ← hpc2] at hk2
  have hstore2 : wrenJitStoreTrace jit2 t2 =
      some ({ jit2 with traces := jit2.traces.set k2 t2 },
            some (t1.code, t1.snapshots, t1.gc_roots)) := by
    simp only [wrenJitStoreTrace]
    rw [if_neg (by omega)]
    exact hk2
  have hlenpr3 : ∀ x : Nat, x &&& (jit2.trace_capacity - 1)
      < jit2.traces.length := by
    intro x; rw [hcap2]; exact hlenpr2 x
  have hlk3 := storeProbe_lookupLoop jit2 t2 _ (by rw [hpc2]; exact hpc1)
      hlenpr3 _ _ _ _ (hlenpr3 _) hk2
  dsimp only at hlk3
  have hne3 : (jit2.traces.set k2 t2).isEmpty = false := by
    rcases he : jit2.traces.set k2 t2 with _ | _
    · have : (jit2.traces.set k2 t2).length = 0 := by rw [he]; rfl
      simp only [List.length_set] at this
      rw [hlen3, hlen] at this
      omega
    · rfl
  refine ⟨k2, hstore2, ?_⟩
  simp only [wrenJitLookup, hne3, Bool.false_eq_true, if_false]
  exact hlk3

/-- C8: insert-then-lookup on the trace cache.  On a well-formed table
(power-of-two capacity, table length equal to the capacity), once
wrenJitStoreTrace has stored trace t1 (growing first if the load factor
demands it), wrenJitLookup of t1's anchor pc returns t1; and storing a
second trace t2 with the same anchor (below the grow threshold) finds the
occupied slot, releases the first trace's code, snapshot table and GC-root
array (the store's second component), overwrites that slot in place
leaving trace_count and traces_compiled untouched, and a subsequent lookup
of the anchor returns t2. -/
theorem c8_trace_cache_store_lookup
    (jit jit2 : WrenJitState) (t1 t2 : JitTrace)
    (ev : Option (Nat × List JitSnapshot × List Nat))
    (hwf : jitTableWF jit) (hpc1 : t1.anchor_pc ≠ 0)
    (hpc2 : t2.anchor_pc = t1.anchor_pc)
    (h1 : wrenJitStoreTrace jit t1 = some (jit2, ev)) :
    wrenJitLookup jit2 t1.anchor_pc = some t1 ∧
    (jit2.trace_count * 10 < jit2.trace_capacity * 7 →
     ∃ k, wrenJitStoreTrace jit2 t2 =
            some ({ jit2 with traces := jit2.traces.set k t2 },
                  some (t1.code, t1.snapshots, t1.gc_roots)) ∧
          wrenJitLookup { jit2 with traces := jit2.traces.set k t2 }
              t2.anchor_pc = some t2) := by
  simp only [wrenJitStoreTrace] at h1
  split_ifs at h1 with hg
  · exact store_core (grow_trace_table jit) jit2 t1 t2 ev
      (grow_wf jit hwf) hpc1 hpc2 h1
  · exact store_core jit jit2 t1 t2 ev hwf hpc1 hpc2 h1

theorem c8_trace_cache_store_lookup_witness :
    wrenJitLookup c8Jit2 c8T1.anchor_pc = some c8T1 ∧
    (∃ k, wrenJitStoreTrace c8Jit2 c8T2 =
            some ({ c8Jit2 with traces := c8Jit2.traces.set k c8T2 },
                  some (c8T1.code, c8T1.snapshots, c8T1.gc_roots)) ∧
          wrenJitLookup { c8Jit2 with traces := c8Jit2.traces.set k c8T2 }
              c8T2.anchor_pc = some c8T2) := by
  have h := c8_trace_cache_store_lookup c8Jit0 c8Jit2 c8T1 c8T2 none
    ⟨rfl, 2, rfl⟩ (by decide) rfl (by decide)
  exact ⟨h.1, h.2 (by decide)⟩
theorem getD_set_eq_of_lt {α : Type} {l : List α} {i : Nat} (a d : α)
    (h : i < l.length) : (l.set i a).getD i d = a := by
  rw [List.getD_eq_getElem?_getD, List.getElem?_set_self h]
  rfl

theorem getD_set_of_ne {α : Type} {l : List α} {i j : Nat} (a d : α)
    (h : i ≠ j) : (l.set i a).getD j d = l.getD j d := by
  rw [List.getD_eq_getElem?_getD, List.getElem?_set_ne h,
      ← List.getD_eq_getElem?_getD]

theorem findFreeIdx_spec :
    ∀ (l : List Bool) (i : Nat), findFreeIdx l = some i →
      l.getD i false = true := by
  intro l
  induction l with
  | nil => intro i h; simp [findFreeIdx] at h
  | cons b rest ih =>
    intro i h
    simp only [findFreeIdx] at h
    split_ifs at h with hb
    · rw [Option.some.injEq] at h
      subst h
      simpa using hb
    · rcases hr : findFreeIdx rest with _ | i2
      · rw [hr] at h; simp at h
      · rw [hr] at h
        simp only [Option.map_some'] at h
        rw [Option.some.injEq] at h
        subst h
        simpa using ih i2 hr

theorem allocGPReg_spec (st : RegAllocState) (r : Nat)
    (st2 : RegAllocState) (h : allocGPReg st = (some r, st2)) :
    st.gp_scratch_free.getD r false = true ∧
    st2 = { st with gp_scratch_free := st.gp_scratch_free.set r false } := by
  rcases hf : findFreeIdx st.gp_scratch_free with _ | i
  · simp [allocGPReg, hf] at h
  · simp only [allocGPReg, hf] at h
    obtain ⟨h1, h2⟩ := Prod.mk.injEq .. ▸ h
    rw [Option.some.injEq] at h1
    subst h1
    exact ⟨findFreeIdx_spec _ _ hf, h2.symm⟩

theorem allocFPReg_spec (st : RegAllocState) (r : Nat)
    (st2 : RegAllocState) (h : allocFPReg st = (some r, st2)) :
    (∃ j, r = FP_SCRATCH_BASE + j ∧
      st.fp_scratch_free.getD j false = true ∧
      st2 = { st with fp_scratch_free := st.fp_scratch_free.set j false }) ∨
    (∃ j, r = FP_SAVED_BASE + j ∧
      st.fp_saved_free.getD j false = true ∧
      st2 = { st with fp_saved_free := st.fp_saved_free.set j false }) := by
  rcases hf : findFreeIdx st.fp_scratch_free with _ | i
  · rcases hv : findFreeIdx st.fp_saved_free with _ | i2
    · simp [allocFPReg, hf, hv] at h
    · simp only [allocFPReg, hf, hv] at h
      obtain ⟨h1, h2⟩ := Prod.mk.injEq .. ▸ h
      rw [Option.some.injEq] at h1
      exact Or.inr ⟨i2, h1.symm, findFreeIdx_spec _ _ hv, h2.symm⟩
  · simp only [allocFPReg, hf] at h
    obtain ⟨h1, h2⟩ := Prod.mk.injEq .. ▸ h
    rw [Option.some.injEq] at h1
    exact Or.inl ⟨i, h1.symm, findFreeIdx_spec _ _ hf, h2.symm⟩

theorem activeInsert_mem (ranges : List LiveRange) (ri : Nat) :
    ∀ (act : List Nat) (x : Nat),
      x ∈ activeInsert act ri ranges ↔ x = ri ∨ x ∈ act := by
  intro act
  induction act with
  | nil => intro x; simp [activeInsert]
  | cons a rest ih =>
    intro x
    simp only [activeInsert]
    split_ifs
    · simp
    · simp only [List.mem_cons, ih]
      tauto

theorem activeInsert_nodup (ranges : List LiveRange) (ri : Nat) :
    ∀ (act : List Nat), ri ∉ act → act.Nodup →
      (activeInsert act ri ranges).Nodup := by
  intro act
  induction act with
  | nil => intro _ _; simp [activeInsert]
  | cons a rest ih =>
    intro hri hnd
    simp only [activeInsert]
    rw [List.nodup_cons] at hnd
    split_ifs
    · exact List.nodup_cons.mpr ⟨by simp_all, List.nodup_cons.mpr hnd⟩
    · refine List.nodup_cons.mpr ⟨?_, ih (by simp_all) hnd.2⟩
      rw [activeInsert_mem]
      push_neg
      exact ⟨fun he => hri (by simp [he]), hnd.1⟩

theorem getD_true_lt {l : List Bool} {i : Nat}
    (h : l.getD i false = true) : i < l.length := by
  by_contra hge
  rw [List.getD_eq_default] at h
  · exact Bool.false_ne_true h
  · omega

theorem freeReg_ranges (st : RegAllocState) (a : RegAlloc) :
    (freeReg st a).ranges = st.ranges := by
  simp only [freeReg]
  split_ifs <;> rfl

theorem freeReg_ssa (st : RegAllocState) (a : RegAlloc) :
    (freeReg st a).ssa_to_reg = st.ssa_to_reg := by
  simp only [freeReg]
  split_ifs <;> rfl

theorem freeReg_gp_len (st : RegAllocState) (a : RegAlloc) :
    (freeReg st a).gp_scratch_free.length = st.gp_scratch_free.length := by
  simp only [freeReg]
  split_ifs <;> simp

theorem freeReg_fps_len (st : RegAllocState) (a : RegAlloc) :
    (freeReg st a).fp_scratch_free.length = st.fp_scratch_free.length := by
  simp only [freeReg]
  split_ifs <;> simp

theorem freeReg_fpv_len (st : RegAllocState) (a : RegAlloc) :
    (freeReg st a).fp_saved_free.length = st.fp_saved_free.length := by
  simp only [freeReg]
  split_ifs <;> simp

theorem holdsReg_shrink {ranges : List LiveRange} {rest : List Nat}
    {c : RegClass} {r ri : Nat}
    (hn : ¬ holdsReg ranges (ri :: rest) c r) :
    ¬ holdsReg ranges rest c r := by
  rintro ⟨q, hq, h1, h2⟩
  exact hn ⟨q, List.mem_cons_of_mem _ hq, h1, h2⟩

theorem not_holds_of_uniq (R0 : List LiveRange) (st : RegAllocState)
    (ri : Nat) (rest : List Nat) (k : Nat)
    (h : LSInv R0 st (ri :: rest) k) :
    ¬ holdsReg st.ranges rest ((st.ranges.getD ri {}).reg_class)
        ((st.ranges.getD ri {}).alloc.loc.regVal) := by
  rintro ⟨q, hq, hcls, hval⟩
  have hqm : q ∈ ri :: rest := List.mem_cons_of_mem _ hq
  have hne : ri ≠ q := by
    rintro rfl
    exact (List.nodup_cons.mp h.act_nodup).1 hq
  exact h.uniq ri (by simp) q hqm hne hcls.symm hval.symm

theorem freeReg_gp_flag (st : RegAllocState) (a : RegAlloc) (r : Nat)
    (hsp : a.is_spill = false)
    (h : (freeReg st a).gp_scratch_free.getD r false = true) :
    st.gp_scratch_free.getD r false = true ∨
    (a.reg_class = RegClass.gp ∧ a.loc.regVal = r) := by
  by_cases hr : a.reg_class = RegClass.gp ∧ a.loc.regVal = r
  · exact Or.inr hr
  · left
    simp only [freeReg, hsp, Bool.false_eq_true, if_false] at h
    split_ifs at h with h1 h2 h3 h4
    · rcases Decidable.not_and_iff_or_not.mp hr with hc | hv
      · exact absurd h1 hc
      · have h' : (st.gp_scratch_free.set a.loc.regVal true).getD r false
            = true := h
        rwa [getD_set_of_ne _ _ hv] at h'
    · exact h
    · exact h
    · exact h
    · exact h

theorem freeReg_fps_flag (st : RegAllocState) (a : RegAlloc) (j : Nat)
    (hsp : a.is_spill = false)
    (h : (freeReg st a).fp_scratch_free.getD j false = true) :
    st.fp_scratch_free.getD j false = true ∨
    (a.reg_class = RegClass.fp ∧ a.loc.regVal = FP_SCRATCH_BASE + j) := by
  by_cases hr : a.reg_class = RegClass.fp ∧ a.loc.regVal = FP_SCRATCH_BASE + j
  · exact Or.inr hr
  · left
    simp only [freeReg, hsp, Bool.false_eq_true, if_false] at h
    split_ifs at h with h1 h2 h3 h4
    · exact h
    · exact h
    · exact h
    · -- scratch branch: fp_scratch set (rv - 100) true
      have hc : a.reg_class = RegClass.fp := by
        cases hcc : a.reg_class
        · exact absurd hcc h1
        · rfl
      have hvne : a.loc.regVal ≠ FP_SCRATCH_BASE + j := fun he =>
        hr ⟨hc, he⟩
      have hne : a.loc.regVal - FP_SCRATCH_BASE ≠ j := by
        intro he
        apply hvne
        simp only [FP_SCRATCH_BASE, FP_SCRATCH_COUNT, FP_SAVED_BASE,
                   FP_SAVED_COUNT] at h3 h4 he ⊢
        omega
      have h' : (st.fp_scratch_free.set
          (a.loc.regVal - FP_SCRATCH_BASE) true).getD j false = true := h
      rwa [getD_set_of_ne _ _ hne] at h'
    · exact h

theorem freeReg_fpv_flag (st : RegAllocState) (a : RegAlloc) (j : Nat)
    (hsp : a.is_spill = false)
    (h : (freeReg st a).fp_saved_free.getD j false = true) :
    st.fp_saved_free.getD j false = true ∨
    (a.reg_class = RegClass.fp ∧ a.loc.regVal = FP_SAVED_BASE + j) := by
  by_cases hr : a.reg_class = RegClass.fp ∧ a.loc.regVal = FP_SAVED_BASE + j
  · exact Or.inr hr
  · left
    simp only [freeReg, hsp, Bool.false_eq_true, if_false] at h
    split_ifs at h with h1 h2 h3 h4
    · exact h
    · exact h
    · have hc : a.reg_class = RegClass.fp := by
        cases hcc : a.reg_class
        · exact absurd hcc h1
        · rfl
      have hvne : a.loc.regVal ≠ FP_SAVED_BASE + j := fun he => hr ⟨hc, he⟩
      have hne : a.loc.regVal - FP_SAVED_BASE ≠ j := by
        intro he
        apply hvne
        simp only [FP_SCRATCH_BASE, FP_SCRATCH_COUNT, FP_SAVED_BASE,
                   FP_SAVED_COUNT] at h3 he ⊢
        omega
      have h' : (st.fp_saved_free.set
          (a.loc.regVal - FP_SAVED_BASE) true).getD j false = true := h
      rwa [getD_set_of_ne _ _ hne] at h'
    · exact h
    · exact h

theorem inv_remove_head (R0 : List LiveRange) (st : RegAllocState)
    (ri : Nat) (rest : List Nat) (k : Nat)
    (h : LSInv R0 st (ri :: rest) k) (cs : Nat)
    (hexp : (st.ranges.getD ri {}).stop < cs)
    (hcs : ∀ q, k ≤ q → q < R0.length → cs ≤ (R0.getD q {}).start) :
    LSInv R0 (freeReg st (st.ranges.getD ri {}).alloc) rest k := by
  have hsp : (st.ranges.getD ri {}).alloc.is_spill = false :=
    h.act_nonspill ri (by simp)
  have hclsa : (st.ranges.getD ri {}).alloc.reg_class
      = (st.ranges.getD ri {}).reg_class := h.act_class ri (by simp)
  have hr := freeReg_ranges st (st.ranges.getD ri {}).alloc
  exact {
    len_eq := by rw [hr]; exact h.len_eq
    gp_len := by rw [freeReg_gp_len]; exact h.gp_len
    fps_len := by rw [freeReg_fps_len]; exact h.fps_len
    fpv_len := by rw [freeReg_fpv_len]; exact h.fpv_len
    shape := by rw [hr]; exact h.shape
    act_lt := fun p hp => h.act_lt p (List.mem_cons_of_mem _ hp)
    act_nodup := (List.nodup_cons.mp h.act_nodup).2
    act_nonspill := fun p hp => by
      rw [hr]; exact h.act_nonspill p (List.mem_cons_of_mem _ hp)
    act_class := fun p hp => by
      rw [hr]; exact h.act_class p (List.mem_cons_of_mem _ hp)
    coverage := by
      intro p hp hsp2
      rw [hr] at hsp2
      rcases h.coverage p hp hsp2 with hin | hfar
      · rcases List.mem_cons.mp hin with rfl | hin2
        · right
          intro q hq hql
          rw [hr]
          exact lt_of_lt_of_le hexp (hcs q hq hql)
        · exact Or.inl hin2
      · right
        intro q hq hql
        rw [hr]
        exact hfar q hq hql
    free_gp := by
      intro r hflag
      rw [hr]
      rcases freeReg_gp_flag st _ r hsp hflag with hold | ⟨hc, hv⟩
      · exact holdsReg_shrink (h.free_gp r hold)
      · have hn := not_holds_of_uniq R0 st ri rest k h
        rwa [← hclsa, hc, hv] at hn
    free_fps := by
      intro j hflag
      rw [hr]
      rcases freeReg_fps_flag st _ j hsp hflag with hold | ⟨hc, hv⟩
      · exact holdsReg_shrink (h.free_fps j hold)
      · have hn := not_holds_of_uniq R0 st ri rest k h
        rwa [← hclsa, hc, hv] at hn
    free_fpv := by
      intro j hflag
      rw [hr]
      rcases freeReg_fpv_flag st _ j hsp hflag with hold | ⟨hc, hv⟩
      · exact holdsReg_shrink (h.free_fpv j hold)
      · have hn := not_holds_of_uniq R0 st ri rest k h
        rwa [← hclsa, hc, hv] at hn
    uniq := by
      simp only [hr]
      exact fun p hp q hq hne => h.uniq p (List.mem_cons_of_mem _ hp)
        q (List.mem_cons_of_mem _ hq) hne
    safety := by
      simp only [hr]
      exact h.safety }

theorem expire_inv (R0 : List LiveRange) (cs : Nat) (k : Nat)
    (hcs : ∀ q, k ≤ q → q < R0.length → cs ≤ (R0.getD q {}).start) :
    ∀ (act : List Nat) (st : RegAllocState),
      LSInv R0 st act k →
      LSInv R0 (expireOldIntervals st act cs).1
        (expireOldIntervals st act cs).2 k ∧
      (expireOldIntervals st act cs).1.ranges = st.ranges := by
  intro act
  induction act with
  | nil => intro st h; exact ⟨h, rfl⟩
  | cons ri rest ih =>
    intro st h
    by_cases hexp : (st.ranges.getD ri {}).stop < cs
    · have hrec := ih (freeReg st (st.ranges.getD ri {}).alloc)
        (inv_remove_head R0 st ri rest k h cs hexp hcs)
      have hunf : expireOldIntervals st (ri :: rest) cs =
          expireOldIntervals (freeReg st (st.ranges.getD ri {}).alloc)
            rest cs := by
        simp only [expireOldIntervals, if_pos hexp]
      rw [hunf]
      exact ⟨hrec.1, by rw [hrec.2, freeReg_ranges]⟩
    · have hunf : expireOldIntervals st (ri :: rest) cs = (st, ri :: rest) := by
        simp only [expireOldIntervals, if_neg hexp]
      rw [hunf]
      exact ⟨h, rfl⟩

theorem inv_take_reg (R0 : List LiveRange) (stE : RegAllocState)
    (actE : List Nat) (k : Nat) (hk : k < R0.length)
    (hE : LSInv R0 stE actE k) (reg : Nat)
    (hfree : ¬ holdsReg stE.ranges actE
        ((stE.ranges.getD k {}).reg_class) reg)
    (st3 : RegAllocState) (rs : List LiveRange)
    (h3r : st3.ranges = stE.ranges.set k
        { stE.ranges.getD k {} with alloc :=
          { is_spill := false, loc := .reg reg,
            reg_class := (stE.ranges.getD k {}).reg_class } })
    (h3gl : st3.gp_scratch_free.length = stE.gp_scratch_free.length)
    (h3fl : st3.fp_scratch_free.length = stE.fp_scratch_free.length)
    (h3vl : st3.fp_saved_free.length = stE.fp_saved_free.length)
    (h3gp : ∀ r, st3.gp_scratch_free.getD r false = true →
        stE.gp_scratch_free.getD r false = true ∧
        (RegClass.gp = (stE.ranges.getD k {}).reg_class → r ≠ reg))
    (h3fps : ∀ j, st3.fp_scratch_free.getD j false = true →
        stE.fp_scratch_free.getD j false = true ∧
        (RegClass.fp = (stE.ranges.getD k {}).reg_class →
          FP_SCRATCH_BASE + j ≠ reg))
    (h3fpv : ∀ j, st3.fp_saved_free.getD j false = true →
        stE.fp_saved_free.getD j false = true ∧
        (RegClass.fp = (stE.ranges.getD k {}).reg_class →
          FP_SAVED_BASE + j ≠ reg)) :
    LSInv R0 st3 (activeInsert actE k rs) (k + 1) := by
  have hklen : k < stE.ranges.length := by rw [hE.len_eq]; exact hk
  have hgetk : st3.ranges.getD k {} =
      { stE.ranges.getD k {} with alloc :=
        { is_spill := false, loc := .reg reg,
          reg_class := (stE.ranges.getD k {}).reg_class } } := by
    rw [h3r]; exact getD_set_eq_of_lt _ _ hklen
  have hgetp : ∀ p : Nat, p ≠ k →
      st3.ranges.getD p {} = stE.ranges.getD p {} := by
    intro p hp
    rw [h3r]; exact getD_set_of_ne _ _ (fun he => hp he.symm)
  have hkact : k ∉ actE := fun hm => absurd (hE.act_lt k hm) (by omega)
  have hmem : ∀ x, x ∈ activeInsert actE k rs ↔ x = k ∨ x ∈ actE :=
    fun x => activeInsert_mem rs k actE x
  exact {
    len_eq := by rw [h3r, List.length_set]; exact hE.len_eq
    gp_len := by rw [h3gl]; exact hE.gp_len
    fps_len := by rw [h3fl]; exact hE.fps_len
    fpv_len := by rw [h3vl]; exact hE.fpv_len
    shape := by
      intro p
      by_cases hp : p = k
      · subst hp
        rw [hgetk]
        exact hE.shape p
      · rw [hgetp p hp]
        exact hE.shape p
    act_lt := by
      intro p hp
      rcases (hmem p).mp hp with rfl | hin
      · omega
      · have := hE.act_lt p hin; omega
    act_nodup := activeInsert_nodup rs k actE hkact hE.act_nodup
    act_nonspill := by
      intro p hp
      rcases (hmem p).mp hp with rfl | hin
      · rw [hgetk]
      · rw [hgetp p (by have := hE.act_lt p hin; omega)]
        exact hE.act_nonspill p hin
    act_class := by
      intro p hp
      rcases (hmem p).mp hp with rfl | hin
      · rw [hgetk]
      · rw [hgetp p (by have := hE.act_lt p hin; omega)]
        exact hE.act_class p hin
    coverage := by
      intro p hp hsp
      by_cases hpk : p = k
      · subst hpk
        exact Or.inl ((hmem p).mpr (Or.inl rfl))
      · rw [hgetp p hpk] at hsp ⊢
        rcases hE.coverage p (by omega) hsp with hin | hfar
        · exact Or.inl ((hmem p).mpr (Or.inr hin))
        · exact Or.inr (fun q hq hql => hfar q (by omega) hql)
    free_gp := by
      intro r hflag
      obtain ⟨hold, hne⟩ := h3gp r hflag
      rintro ⟨x, hx, hxc, hxv⟩
      rcases (hmem x).mp hx with rfl | hin
      · rw [hgetk] at hxc hxv
        dsimp only [RegLoc.regVal] at hxc hxv
        exact hne hxc.symm hxv.symm
      · have hxk : x ≠ k := by have := hE.act_lt x hin; omega
        rw [hgetp x hxk] at hxc hxv
        exact hE.free_gp r hold ⟨x, hin, hxc, hxv⟩
    free_fps := by
      intro j hflag
      obtain ⟨hold, hne⟩ := h3fps j hflag
      rintro ⟨x, hx, hxc, hxv⟩
      rcases (hmem x).mp hx with rfl | hin
      · rw [hgetk] at hxc hxv
        dsimp only [RegLoc.regVal] at hxc hxv
        exact hne hxc.symm hxv.symm
      · have hxk : x ≠ k := by have := hE.act_lt x hin; omega
        rw [hgetp x hxk] at hxc hxv
        exact hE.free_fps j hold ⟨x, hin, hxc, hxv⟩
    free_fpv := by
      intro j hflag
      obtain ⟨hold, hne⟩ := h3fpv j hflag
      rintro ⟨x, hx, hxc, hxv⟩
      rcases (hmem x).mp hx with rfl | hin
      · rw [hgetk] at hxc hxv
        dsimp only [RegLoc.regVal] at hxc hxv
        exact hne hxc.symm hxv.symm
      · have hxk : x ≠ k := by have := hE.act_lt x hin; omega
        rw [hgetp x hxk] at hxc hxv
        exact hE.free_fpv j hold ⟨x, hin, hxc, hxv⟩
    uniq := by
      intro p hp q hq hne hcls
      rcases (hmem p).mp hp with hpk | hpin
      · rcases (hmem q).mp hq with hqk | hqin
        · exact absurd (hpk.trans hqk.symm) hne
        · have hqnk : q ≠ k := by have := hE.act_lt q hqin; omega
          rw [hpk, hgetk, hgetp q hqnk] at hcls ⊢
          dsimp only [RegLoc.regVal] at hcls ⊢
          intro hv
          exact hfree ⟨q, hqin, hcls.symm, hv.symm⟩
      · rcases (hmem q).mp hq with hqk | hqin
        · have hpnk : p ≠ k := by have := hE.act_lt p hpin; omega
          rw [hqk, hgetk, hgetp p hpnk] at hcls ⊢
          dsimp only [RegLoc.regVal] at hcls ⊢
          intro hv
          exact hfree ⟨p, hpin, hcls, hv⟩
        · have hpnk : p ≠ k := by have := hE.act_lt p hpin; omega
          have hqnk : q ≠ k := by have := hE.act_lt q hqin; omega
          rw [hgetp p hpnk, hgetp q hqnk] at hcls ⊢
          exact hE.uniq p hpin q hqin hne hcls
    safety := by
      intro p hp q hq hne hsp hsq hcls hov
      simp only [rangesOverlap] at hov ⊢
      by_cases hpk : p = k
      · have hqnk : q ≠ k := fun he => hne (hpk.trans he.symm)
        rw [hpk, hgetk, hgetp q hqnk] at hcls hov ⊢
        rw [hgetp q hqnk] at hsq
        dsimp only [RegLoc.regVal] at hcls hov ⊢
        rcases hE.coverage q (by omega) hsq with hin | hfar
        · intro hv
          exact hfree ⟨q, hin, hcls.symm, hv.symm⟩
        · have hlt := hfar k (le_refl k) hk
          rw [← (hE.shape k).1] at hlt
          exact absurd hov.1 (by omega)
      · by_cases hqk : q = k
        · have hpnk : p ≠ k := hpk
          rw [hqk, hgetk, hgetp p hpnk] at hcls hov ⊢
          rw [hgetp p hpnk] at hsp
          dsimp only [RegLoc.regVal] at hcls hov ⊢
          rcases hE.coverage p (by omega) hsp with hin | hfar
          · intro hv
            exact hfree ⟨p, hin, hcls, hv⟩
          · have hlt := hfar k (le_refl k) hk
            rw [← (hE.shape k).1] at hlt
            exact absurd hov.2 (by omega)
        · rw [hgetp p hpk] at hsp hcls hov ⊢
          rw [hgetp q hqk] at hsq hcls hov ⊢
          have hq2 : q < k := by
            rcases Nat.lt_succ_iff_lt_or_eq.mp hq with h2 | h2
            · exact h2
            · exact absurd h2 hqk
          have hp2 : p < k := by
            rcases Nat.lt_succ_iff_lt_or_eq.mp hp with h2 | h2
            · exact h2
            · exact absurd h2 hpk
          exact hE.safety p hp2 q hq2 hne hsp hsq hcls hov }

theorem makeSpill_isSpill (st : RegAllocState) (rc : RegClass) :
    (makeSpill st rc).1.is_spill = true := rfl

theorem spillCurrent_ranges (st : RegAllocState) (i : Nat) :
    (spillCurrent st i).ranges = st.ranges.set i
      { st.ranges.getD i {} with alloc :=
        (makeSpill st (st.ranges.getD i {}).reg_class).1 } := rfl

theorem inv_spill_current (R0 : List LiveRange) (stE : RegAllocState)
    (actE : List Nat) (k : Nat) (hk : k < R0.length)
    (hE : LSInv R0 stE actE k) (st4 : RegAllocState)
    (h4r : st4.ranges = (spillCurrent stE k).ranges)
    (h4gp : st4.gp_scratch_free = stE.gp_scratch_free)
    (h4fs : st4.fp_scratch_free = stE.fp_scratch_free)
    (h4fv : st4.fp_saved_free = stE.fp_saved_free) :
    LSInv R0 st4 actE (k + 1) := by
  have hklen : k < stE.ranges.length := by rw [hE.len_eq]; exact hk
  have hgetk : st4.ranges.getD k {} =
      { stE.ranges.getD k {} with alloc :=
        (makeSpill stE (stE.ranges.getD k {}).reg_class).1 } := by
    rw [h4r, spillCurrent_ranges]
    exact getD_set_eq_of_lt _ _ hklen
  have hgetp : ∀ p : Nat, p ≠ k →
      st4.ranges.getD p {} = stE.ranges.getD p {} := by
    intro p hp
    rw [h4r, spillCurrent_ranges]
    exact getD_set_of_ne _ _ (fun he => hp he.symm)
  have hspk : (st4.ranges.getD k {}).alloc.is_spill = true := by
    rw [hgetk]
    rfl
  exact {
    len_eq := by rw [h4r, spillCurrent_ranges, List.length_set]; exact hE.len_eq
    gp_len := by rw [h4gp]; exact hE.gp_len
    fps_len := by rw [h4fs]; exact hE.fps_len
    fpv_len := by rw [h4fv]; exact hE.fpv_len
    shape := by
      intro p
      by_cases hp : p = k
      · subst hp
        rw [hgetk]
        exact hE.shape p
      · rw [hgetp p hp]
        exact hE.shape p
    act_lt := fun p hp => by have := hE.act_lt p hp; omega
    act_nodup := hE.act_nodup
    act_nonspill := fun p hp => by
      rw [hgetp p (by have := hE.act_lt p hp; omega)]
      exact hE.act_nonspill p hp
    act_class := fun p hp => by
      rw [hgetp p (by have := hE.act_lt p hp; omega)]
      exact hE.act_class p hp
    coverage := by
      intro p hp hsp
      by_cases hpk : p = k
      · subst hpk
        rw [hspk] at hsp
        exact absurd hsp (by simp)
      · rw [hgetp p hpk] at hsp ⊢
        rcases hE.coverage p (by omega) hsp with hin | hfar
        · exact Or.inl hin
        · exact Or.inr (fun q hq hql => hfar q (by omega) hql)
    free_gp := by
      intro r hflag
      rw [h4gp] at hflag
      rintro ⟨x, hx, hxc, hxv⟩
      rw [hgetp x (by have := hE.act_lt x hx; omega)] at hxc hxv
      exact hE.free_gp r hflag ⟨x, hx, hxc, hxv⟩
    free_fps := by
      intro j hflag
      rw [h4fs] at hflag
      rintro ⟨x, hx, hxc, hxv⟩
      rw [hgetp x (by have := hE.act_lt x hx; omega)] at hxc hxv
      exact hE.free_fps j hflag ⟨x, hx, hxc, hxv⟩
    free_fpv := by
      intro j hflag
      rw [h4fv] at hflag
      rintro ⟨x, hx, hxc, hxv⟩
      rw [hgetp x (by have := hE.act_lt x hx; omega)] at hxc hxv
      exact hE.free_fpv j hflag ⟨x, hx, hxc, hxv⟩
    uniq := by
      intro p hp q hq hne hcls
      rw [hgetp p (by have := hE.act_lt p hp; omega),
          hgetp q (by have := hE.act_lt q hq; omega)] at hcls ⊢
      exact hE.uniq p hp q hq hne hcls
    safety := by
      intro p hp q hq hne hsp hsq hcls hov
      by_cases hpk : p = k
      · rw [hpk, hspk] at hsp
        exact absurd hsp (by simp)
      · by_cases hqk : q = k
        · rw [hqk, hspk] at hsq
          exact absurd hsq (by simp)
        · rw [hgetp p hpk] at hsp hcls hov ⊢
          rw [hgetp q hqk] at hsq hcls hov ⊢
          exact hE.safety p (by omega) q (by omega) hne hsp hsq hcls hov }

theorem inv_steal (R0 : List LiveRange) (stE : RegAllocState)
    (sri k : Nat) (hk : k < R0.length) (hE : LSInv R0 stE [sri] k)
    (hcls : (stE.ranges.getD sri {}).reg_class
      = (stE.ranges.getD k {}).reg_class)
    (st4 : RegAllocState)
    (h4r : st4.ranges = (stE.ranges.set k
        { stE.ranges.getD k {} with alloc :=
          (stE.ranges.getD sri {}).alloc }).set sri
        { stE.ranges.getD sri {} with alloc :=
          (makeSpill stE (stE.ranges.getD sri {}).reg_class).1 })
    (h4gp : st4.gp_scratch_free = stE.gp_scratch_free)
    (h4fs : st4.fp_scratch_free = stE.fp_scratch_free)
    (h4fv : st4.fp_saved_free = stE.fp_saved_free) :
    LSInv R0 st4 [k] (k + 1) := by
  have hsrik : sri < k := hE.act_lt sri (by simp)
  have hklen : k < stE.ranges.length := by rw [hE.len_eq]; exact hk
  have hsrilen : sri < stE.ranges.length := by omega
  have hnsp : (stE.ranges.getD sri {}).alloc.is_spill = false :=
    hE.act_nonspill sri (by simp)
  have hacls : (stE.ranges.getD sri {}).alloc.reg_class
      = (stE.ranges.getD sri {}).reg_class := hE.act_class sri (by simp)
  have hgetk : st4.ranges.getD k {} =
      { stE.ranges.getD k {} with alloc := (stE.ranges.getD sri {}).alloc } := by
    rw [h4r, getD_set_of_ne _ _ (fun he => absurd he (by omega))]
    exact getD_set_eq_of_lt _ _ hklen
  have hgetsri : st4.ranges.getD sri {} =
      { stE.ranges.getD sri {} with alloc :=
        (makeSpill stE (stE.ranges.getD sri {}).reg_class).1 } := by
    rw [h4r]
    exact getD_set_eq_of_lt _ _ (by simpa using hsrilen)
  have hgetp : ∀ p : Nat, p ≠ k → p ≠ sri →
      st4.ranges.getD p {} = stE.ranges.getD p {} := by
    intro p hp1 hp2
    rw [h4r, getD_set_of_ne _ _ (fun he => hp2 he.symm),
        getD_set_of_ne _ _ (fun he => hp1 he.symm)]
  have hspsri : (st4.ranges.getD sri {}).alloc.is_spill = true := by
    rw [hgetsri]
    rfl
  exact {
    len_eq := by rw [h4r]; simp only [List.length_set]; exact hE.len_eq
    gp_len := by rw [h4gp]; exact hE.gp_len
    fps_len := by rw [h4fs]; exact hE.fps_len
    fpv_len := by rw [h4fv]; exact hE.fpv_len
    shape := by
      intro p
      by_cases hp : p = k
      · subst hp; rw [hgetk]; exact hE.shape p
      · by_cases hp2 : p = sri
        · subst hp2; rw [hgetsri]; exact hE.shape p
        · rw [hgetp p hp hp2]; exact hE.shape p
    act_lt := by intro p hp; rw [List.mem_singleton] at hp; omega
    act_nodup := List.nodup_singleton k
    act_nonspill := by
      intro p hp
      rw [List.mem_singleton] at hp
      subst hp
      rw [hgetk]
      dsimp only
      exact hnsp
    act_class := by
      intro p hp
      rw [List.mem_singleton] at hp
      subst hp
      rw [hgetk]
      dsimp only
      rw [hacls, hcls]
    coverage := by
      intro p hp hsp
      by_cases hpk : p = k
      · subst hpk; exact Or.inl (by simp)
      · by_cases hpsri : p = sri
        · subst hpsri
          rw [hspsri] at hsp
          exact absurd hsp (by simp)
        · rw [hgetp p hpk hpsri] at hsp ⊢
          rcases hE.coverage p (by omega) hsp with hin | hfar
          · rw [List.mem_singleton] at hin
            exact absurd hin hpsri
          · exact Or.inr (fun q hq hql => hfar q (by omega) hql)
    free_gp := by
      intro r hflag
      rw [h4gp] at hflag
      rintro ⟨x, hx, hxc, hxv⟩
      rw [List.mem_singleton] at hx
      subst hx
      rw [hgetk] at hxc hxv
      dsimp only at hxc hxv
      exact hE.free_gp r hflag ⟨sri, by simp, by rw [← hcls] at hxc; exact hxc, hxv⟩
    free_fps := by
      intro j hflag
      rw [h4fs] at hflag
      rintro ⟨x, hx, hxc, hxv⟩
      rw [List.mem_singleton] at hx
      subst hx
      rw [hgetk] at hxc hxv
      dsimp only at hxc hxv
      exact hE.free_fps j hflag
        ⟨sri, by simp, by rw [← hcls] at hxc; exact hxc, hxv⟩
    free_fpv := by
      intro j hflag
      rw [h4fv] at hflag
      rintro ⟨x, hx, hxc, hxv⟩
      rw [List.mem_singleton] at hx
      subst hx
      rw [hgetk] at hxc hxv
      dsimp only at hxc hxv
      exact hE.free_fpv j hflag
        ⟨sri, by simp, by rw [← hcls] at hxc; exact hxc, hxv⟩
    uniq := by
      intro p hp q hq hne _
      rw [List.mem_singleton] at hp hq
      exact absurd (hp.trans hq.symm) hne
    safety := by
      intro p hp q hq hne hsp hsq hcls2 hov
      simp only [rangesOverlap] at hov ⊢
      by_cases hpsri : p = sri
      · rw [hpsri, hspsri] at hsp
        exact absurd hsp (by simp)
      · by_cases hqsri : q = sri
        · rw [hqsri, hspsri] at hsq
          exact absurd hsq (by simp)
        · by_cases hpk : p = k
          · have hqnk : q ≠ k := fun he => hne (hpk.trans he.symm)
            rw [hpk, hgetk, hgetp q hqnk hqsri] at hcls2 hov ⊢
            rw [hgetp q hqnk hqsri] at hsq
            dsimp only at hcls2 hov ⊢
            rcases hE.coverage q (by omega) hsq with hin | hfar
            · rw [List.mem_singleton] at hin
              exact absurd hin hqsri
            · have hlt := hfar k (le_refl k) hk
              rw [← (hE.shape k).1] at hlt
              exact absurd hov.1 (by omega)
          · by_cases hqk : q = k
            · rw [hqk, hgetk, hgetp p hpk hpsri] at hcls2 hov ⊢
              rw [hgetp p hpk hpsri] at hsp
              dsimp only at hcls2 hov ⊢
              rcases hE.coverage p (by omega) hsp with hin | hfar
              · rw [List.mem_singleton] at hin
                exact absurd hin hpsri
              · have hlt := hfar k (le_refl k) hk
                rw [← (hE.shape k).1] at hlt
                exact absurd hov.2 (by omega)
            · rw [hgetp p hpk hpsri] at hsp hcls2 hov ⊢
              rw [hgetp q hqk hqsri] at hsq hcls2 hov ⊢
              exact hE.safety p (by omega) q (by omega) hne hsp hsq hcls2 hov }

theorem allocGPReg_none (st : RegAllocState)
    (h : (allocGPReg st).1 = none) : (allocGPReg st).2 = st := by
  rcases hf : findFreeIdx st.gp_scratch_free with _ | i
  · simp [allocGPReg, hf]
  · simp [allocGPReg, hf] at h

theorem allocFPReg_none (st : RegAllocState)
    (h : (allocFPReg st).1 = none) : (allocFPReg st).2 = st := by
  rcases hf : findFreeIdx st.fp_scratch_free with _ | i
  · rcases hv : findFreeIdx st.fp_saved_free with _ | i2
    · simp [allocFPReg, hf, hv]
    · simp [allocFPReg, hf, hv] at h
  · simp [allocFPReg, hf] at h

theorem findSpillPos_spec (ranges : List LiveRange) (rc : RegClass) :
    ∀ (act : List Nat) (pos : Nat), findSpillPos ranges rc act = some pos →
      pos < act.length ∧
      (ranges.getD (act.getD pos 0) {}).reg_class = rc := by
  intro act
  induction act with
  | nil => intro pos h; simp [findSpillPos] at h
  | cons ri rest ih =>
    intro pos h
    simp only [findSpillPos] at h
    rcases hr : findSpillPos ranges rc rest with _ | p2
    · rw [hr] at h
      dsimp only at h
      split_ifs at h with hc
      rw [Option.some.injEq] at h
      subst h
      exact ⟨by simp, by simpa using hc⟩
    · rw [hr] at h
      rw [Option.some.injEq] at h
      subst h
      obtain ⟨h1, h2⟩ := ih p2 hr
      refine ⟨by simp only [List.length_cons]; omega, ?_⟩
      simpa [List.getD_cons_succ] using h2

theorem spillAtInterval_cases (st : RegAllocState) (act : List Nat)
    (i : Nat) (st3 : RegAllocState) (act3 : List Nat)
    (h : spillAtInterval st act i = some (st3, act3)) :
    (st3 = spillCurrent st i ∧ act3 = act) ∨
    (∃ sri, act = [sri] ∧ act3 = [] ∧
      (st.ranges.getD sri {}).reg_class
        = (st.ranges.getD i {}).reg_class ∧
      st3.ranges = (st.ranges.set i
          { st.ranges.getD i {} with
            alloc := (st.ranges.getD sri {}).alloc }).set sri
          { st.ranges.getD sri {} with alloc :=
            (makeSpill st (st.ranges.getD sri {}).reg_class).1 } ∧
      st3.gp_scratch_free = st.gp_scratch_free ∧
      st3.fp_scratch_free = st.fp_scratch_free ∧
      st3.fp_saved_free = st.fp_saved_free) := by
  simp only [spillAtInterval] at h
  split_ifs at h with hemp
  · rw [Option.some.injEq, Prod.mk.injEq] at h
    exact Or.inl ⟨h.1.symm, h.2.symm⟩
  · rcases hf : findSpillPos st.ranges (st.ranges.getD i {}).reg_class act
        with _ | pos
    · rw [hf] at h
      dsimp only at h
      rw [Option.some.injEq, Prod.mk.injEq] at h
      exact Or.inl ⟨h.1.symm, h.2.symm⟩
    · rw [hf] at h
      dsimp only at h
      split_ifs at h with hstop hssa hempty
      · rw [Option.some.injEq, Prod.mk.injEq] at h
        obtain ⟨hst, hact⟩ := h
        obtain ⟨hpos, hcls⟩ := findSpillPos_spec _ _ act pos hf
        have hel : (activeRemove act pos).length = act.length - 1 := by
          simp only [activeRemove]
          rw [List.length_eraseIdx]
          simp [hpos]
        have hlen0 : (activeRemove act pos).length = 0 := by
          cases h3 : activeRemove act pos
          · rfl
          · rw [h3] at hempty; simp at hempty
        have hlen : act.length = 1 := by omega
        obtain ⟨a, ha⟩ := List.length_eq_one.mp hlen
        have hpos0 : pos = 0 := by
          rw [ha] at hpos; simpa using hpos
        have hsri : act.getD pos 0 = a := by
          rw [ha, hpos0]; rfl
        refine Or.inr ⟨a, ha, ?_, ?_, ?_, ?_, ?_, ?_⟩
        · rw [← hact]
          exact List.length_eq_zero.mp hlen0
        · rw [← hsri]; exact hcls
        · rw [← hst, ← hsri]; rfl
        · rw [← hst]; rfl
        · rw [← hst]; rfl
        · rw [← hst]; rfl
      · rw [Option.some.injEq, Prod.mk.injEq] at h
        exact Or.inl ⟨h.1.symm, h.2.symm⟩


theorem spillCurrent_gp (st : RegAllocState) (i : Nat) :
    (spillCurrent st i).gp_scratch_free = st.gp_scratch_free := rfl

theorem spillCurrent_fps (st : RegAllocState) (i : Nat) :
    (spillCurrent st i).fp_scratch_free = st.fp_scratch_free := rfl

theorem spillCurrent_fpv (st : RegAllocState) (i : Nat) :
    (spillCurrent st i).fp_saved_free = st.fp_saved_free := rfl

theorem regAllocFinish_fst_ranges (st3 : RegAllocState) (act3 : List Nat)
    (i : Nat) : (regAllocFinish st3 act3 i).1.ranges = st3.ranges := by
  simp only [regAllocFinish]
  split_ifs <;> rfl

theorem regAllocFinish_fst_gp (st3 : RegAllocState) (act3 : List Nat)
    (i : Nat) :
    (regAllocFinish st3 act3 i).1.gp_scratch_free = st3.gp_scratch_free := by
  simp only [regAllocFinish]
  split_ifs <;> rfl

theorem regAllocFinish_fst_fps (st3 : RegAllocState) (act3 : List Nat)
    (i : Nat) :
    (regAllocFinish st3 act3 i).1.fp_scratch_free = st3.fp_scratch_free := by
  simp only [regAllocFinish]
  split_ifs <;> rfl

theorem regAllocFinish_fst_fpv (st3 : RegAllocState) (act3 : List Nat)
    (i : Nat) :
    (regAllocFinish st3 act3 i).1.fp_saved_free = st3.fp_saved_free := by
  simp only [regAllocFinish]
  split_ifs <;> rfl

theorem regAllocFinish_snd_spill (st3 : RegAllocState) (act3 : List Nat)
    (i : Nat) (h : (st3.ranges.getD i {}).alloc.is_spill = true) :
    (regAllocFinish st3 act3 i).2 = act3 := by
  simp only [regAllocFinish, h, if_true]

theorem regAllocFinish_snd_reg (st3 : RegAllocState) (act3 : List Nat)
    (i : Nat) (h : (st3.ranges.getD i {}).alloc.is_spill = false) :
    (regAllocFinish st3 act3 i).2 = activeInsert act3 i st3.ranges := by
  simp only [regAllocFinish, h, Bool.false_eq_true, if_false]

theorem activeInsert_nil (ri : Nat) (rs : List LiveRange) :
    activeInsert [] ri rs = [ri] := rfl

theorem spill_path_inv (R0 : List LiveRange) (stE : RegAllocState)
    (actE : List Nat) (k : Nat) (hk : k < R0.length)
    (hE : LSInv R0 stE actE k) (st3 : RegAllocState) (act3 : List Nat)
    (hsp : spillAtInterval stE actE k = some (st3, act3)) :
    LSInv R0 (regAllocFinish st3 act3 k).1 (regAllocFinish st3 act3 k).2
      (k + 1) := by
  have hklen : k < stE.ranges.length := by rw [hE.len_eq]; exact hk
  rcases spillAtInterval_cases stE actE k st3 act3 hsp with
    ⟨hsc, hac⟩ | ⟨sri, hact1, hact3, hclseq, hranges, hg, hf2, hv2⟩
  · have hspk : (st3.ranges.getD k {}).alloc.is_spill = true := by
      rw [hsc, spillCurrent_ranges, getD_set_eq_of_lt _ _ hklen]
      rfl
    rw [regAllocFinish_snd_spill _ _ _ hspk, hac]
    refine inv_spill_current R0 stE actE k hk hE _ ?_ ?_ ?_ ?_
    · rw [regAllocFinish_fst_ranges, hsc]
    · rw [regAllocFinish_fst_gp, hsc, spillCurrent_gp]
    · rw [regAllocFinish_fst_fps, hsc, spillCurrent_fps]
    · rw [regAllocFinish_fst_fpv, hsc, spillCurrent_fpv]
  · have hsrik : sri < k := by
      refine hE.act_lt sri ?_
      rw [hact1]
      simp
    have hsrilen : sri < stE.ranges.length := by omega
    have hspk : (st3.ranges.getD k {}).alloc.is_spill = false := by
      rw [hranges, getD_set_of_ne _ _ (by omega),
          getD_set_eq_of_lt _ _ hklen]
      dsimp only
      refine hE.act_nonspill sri ?_
      rw [hact1]
      simp
    rw [regAllocFinish_snd_reg _ _ _ hspk, hact3, activeInsert_nil]
    refine inv_steal R0 stE sri k hk ?_ hclseq _ ?_ ?_ ?_ ?_
    · rw [← hact1]; exact hE
    · rw [regAllocFinish_fst_ranges, hranges]
    · rw [regAllocFinish_fst_gp, hg]
    · rw [regAllocFinish_fst_fps, hf2]
    · rw [regAllocFinish_fst_fpv, hv2]

theorem allocGPReg_spec2 (st : RegAllocState) (r : Nat)
    (h : (allocGPReg st).1 = some r) :
    st.gp_scratch_free.getD r false = true ∧
    (allocGPReg st).2 =
      { st with gp_scratch_free := st.gp_scratch_free.set r false } :=
  allocGPReg_spec st r (allocGPReg st).2 (by rw [← h])

theorem allocFPReg_spec2 (st : RegAllocState) (r : Nat)
    (h : (allocFPReg st).1 = some r) :
    (∃ j, r = FP_SCRATCH_BASE + j ∧
      st.fp_scratch_free.getD j false = true ∧
      (allocFPReg st).2 =
        { st with fp_scratch_free := st.fp_scratch_free.set j false }) ∨
    (∃ j, r = FP_SAVED_BASE + j ∧
      st.fp_saved_free.getD j false = true ∧
      (allocFPReg st).2 =
        { st with fp_saved_free := st.fp_saved_free.set j false }) :=
  allocFPReg_spec st r (allocFPReg st).2 (by rw [← h])

set_option maxHeartbeats 1000000 in
theorem step_inv (R0 : List LiveRange)
    (hsorted : R0.Pairwise (fun a b => a.start ≤ b.start))
    (st : RegAllocState) (act : List Nat) (k : Nat) (hk : k < R0.length)
    (h : LSInv R0 st act k) (st2 : RegAllocState) (act2 : List Nat)
    (hstep : regAllocStep st act k = some (st2, act2)) :
    LSInv R0 st2 act2 (k + 1) := by
  have hcs : ∀ q, k ≤ q → q < R0.length →
      (st.ranges.getD k {}).start ≤ (R0.getD q {}).start := by
    intro q hq hql
    rw [(h.shape k).1]
    rcases Nat.eq_or_lt_of_le hq with rfl | hlt
    · exact le_refl _
    · have hp := List.pairwise_iff_getElem.mp hsorted k q hk hql hlt
      rw [List.getD_eq_getElem _ _ hk, List.getD_eq_getElem _ _ hql]
      exact hp
  obtain ⟨hE, hEr⟩ := expire_inv R0 (st.ranges.getD k {}).start k hcs act st h
  simp only [regAllocStep] at hstep
  generalize hgE : expireOldIntervals st act (st.ranges.getD k {}).start = E
    at hstep hE hEr
  obtain ⟨stE, actE⟩ := E
  dsimp only at hstep hE hEr
  have hgk : stE.ranges.getD k {} = st.ranges.getD k {} := by rw [hEr]
  by_cases hcls : (st.ranges.getD k {}).reg_class = RegClass.gp
  · rw [if_pos hcls] at hstep
    rcases hr : (allocGPReg stE).1 with _ | reg
    · rw [hr] at hstep
      dsimp only at hstep
      rw [allocGPReg_none stE hr] at hstep
      rcases hsp2 : spillAtInterval stE actE k with _ | p3
      · rw [hsp2] at hstep
        exact absurd hstep (by simp)
      · obtain ⟨st3, act3⟩ := p3
        rw [hsp2] at hstep
        dsimp only at hstep
        rw [Option.some.injEq] at hstep
        have h1 : (regAllocFinish st3 act3 k).1 = st2 := by rw [hstep]
        have h2 : (regAllocFinish st3 act3 k).2 = act2 := by rw [hstep]
        rw [← h1, ← h2]
        exact spill_path_inv R0 stE actE k hk hE st3 act3 hsp2
    · rw [hr] at hstep
      dsimp only at hstep
      rw [Option.some.injEq, Prod.mk.injEq] at hstep
      obtain ⟨h1, h2⟩ := hstep
      obtain ⟨hflag, hstA⟩ := allocGPReg_spec2 stE reg hr
      have hreglt : reg < stE.gp_scratch_free.length := getD_true_lt hflag
      subst h1
      subst h2
      refine inv_take_reg R0 stE actE k hk hE reg ?_ _ _ ?_ ?_ ?_ ?_ ?_ ?_ ?_
      · rw [hgk, hcls]
        exact hE.free_gp reg hflag
      · dsimp only
        rw [hstA]
        dsimp only
        rw [hgk]
      · dsimp only
        rw [hstA]
        dsimp only
        simp
      · dsimp only
        rw [hstA]
      · dsimp only
        rw [hstA]
      · intro r2 hfl2
        dsimp only at hfl2
        rw [hstA] at hfl2
        dsimp only at hfl2
        by_cases hr2 : r2 = reg
        · subst hr2
          rw [getD_set_eq_of_lt _ _ hreglt] at hfl2
          exact absurd hfl2 (by simp)
        · rw [getD_set_of_ne _ _ (fun he => hr2 he.symm)] at hfl2
          exact ⟨hfl2, fun _ => hr2⟩
      · intro j hfl2
        dsimp only at hfl2
        rw [hstA] at hfl2
        refine ⟨hfl2, fun habs => ?_⟩
        rw [hgk, hcls] at habs
        exact RegClass.noConfusion habs
      · intro j hfl2
        dsimp only at hfl2
        rw [hstA] at hfl2
        refine ⟨hfl2, fun habs => ?_⟩
        rw [hgk, hcls] at habs
        exact RegClass.noConfusion habs
  · have hfp : (st.ranges.getD k {}).reg_class = RegClass.fp := by
      cases hc2 : (st.ranges.getD k {}).reg_class
      · exact absurd hc2 hcls
      · rfl
    rw [if_neg hcls] at hstep
    rcases hr : (allocFPReg stE).1 with _ | reg
    · rw [hr] at hstep
      dsimp only at hstep
      rw [allocFPReg_none stE hr] at hstep
      rcases hsp2 : spillAtInterval stE actE k with _ | p3
      · rw [hsp2] at hstep
        exact absurd hstep (by simp)
      · obtain ⟨st3, act3⟩ := p3
        rw [hsp2] at hstep
        dsimp only at hstep
        rw [Option.some.injEq] at hstep
        have h1 : (regAllocFinish st3 act3 k).1 = st2 := by rw [hstep]
        have h2 : (regAllocFinish st3 act3 k).2 = act2 := by rw [hstep]
        rw [← h1, ← h2]
        exact spill_path_inv R0 stE actE k hk hE st3 act3 hsp2
    · rw [hr] at hstep
      dsimp only at hstep
      rw [Option.some.injEq, Prod.mk.injEq] at hstep
      obtain ⟨h1, h2⟩ := hstep
      subst h1
      subst h2
      rcases allocFPReg_spec2 stE reg hr with
        ⟨j, hreg, hflag, hstA⟩ | ⟨j, hreg, hflag, hstA⟩
      · have hjlt : j < stE.fp_scratch_free.length := getD_true_lt hflag
        refine inv_take_reg R0 stE actE k hk hE reg ?_ _ _ ?_ ?_ ?_ ?_ ?_ ?_ ?_
        · rw [hgk, hfp, hreg]
          exact hE.free_fps j hflag
        · dsimp only
          rw [hstA]
          dsimp only
          rw [hgk]
        · dsimp only
          rw [hstA]
        · dsimp only
          rw [hstA]
          dsimp only
          simp
        · dsimp only
          rw [hstA]
        · intro r2 hfl2
          dsimp only at hfl2
          rw [hstA] at hfl2
          refine ⟨hfl2, fun habs => ?_⟩
          rw [hgk, hfp] at habs
          exact RegClass.noConfusion habs
        · intro j2 hfl2
          dsimp only at hfl2
          rw [hstA] at hfl2
          dsimp only at hfl2
          by_cases hj2 : j2 = j
          · subst hj2
            rw [getD_set_eq_of_lt _ _ hjlt] at hfl2
            exact absurd hfl2 (by simp)
          · rw [getD_set_of_ne _ _ (fun he => hj2 he.symm)] at hfl2
            refine ⟨hfl2, fun _ => ?_⟩
            rw [hreg]
            simp only [FP_SCRATCH_BASE]
            omega
        · intro j2 hfl2
          dsimp only at hfl2
          rw [hstA] at hfl2
          refine ⟨hfl2, fun _ => ?_⟩
          have hjb : j < FP_SCRATCH_COUNT := by
            rw [← hE.fps_len]
            exact hjlt
          rw [hreg]
          simp only [FP_SCRATCH_BASE, FP_SAVED_BASE,
            FP_SCRATCH_COUNT] at hjb ⊢
          omega
      · have hjlt : j < stE.fp_saved_free.length := getD_true_lt hflag
        refine inv_take_reg R0 stE actE k hk hE reg ?_ _ _ ?_ ?_ ?_ ?_ ?_ ?_ ?_
        · rw [hgk, hfp, hreg]
          exact hE.free_fpv j hflag
        · dsimp only
          rw [hstA]
          dsimp only
          rw [hgk]
        · dsimp only
          rw [hstA]
        · dsimp only
          rw [hstA]
        · dsimp only
          rw [hstA]
          dsimp only
          simp
        · intro r2 hfl2
          dsimp only at hfl2
          rw [hstA] at hfl2
          refine ⟨hfl2, fun habs => ?_⟩
          rw [hgk, hfp] at habs
          exact RegClass.noConfusion habs
        · intro j2 hfl2
          dsimp only at hfl2
          rw [hstA] at hfl2
          refine ⟨hfl2, fun _ => ?_⟩
          have hjb : j2 < FP_SCRATCH_COUNT := by
            rw [← hE.fps_len]
            exact getD_true_lt hfl2
          rw [hreg]
          simp only [FP_SCRATCH_BASE, FP_SAVED_BASE,
            FP_SCRATCH_COUNT] at hjb ⊢
          omega
        · intro j2 hfl2
          dsimp only at hfl2
          rw [hstA] at hfl2
          dsimp only at hfl2
          by_cases hj2 : j2 = j
          · subst hj2
            rw [getD_set_eq_of_lt _ _ hjlt] at hfl2
            exact absurd hfl2 (by simp)
          · rw [getD_set_of_ne _ _ (fun he => hj2 he.symm)] at hfl2
            refine ⟨hfl2, fun _ => ?_⟩
            rw [hreg]
            simp only [FP_SAVED_BASE]
            omega

theorem loop_inv (R0 : List LiveRange)
    (hsorted : R0.Pairwise (fun a b => a.start ≤ b.start)) :
    ∀ (fuel k : Nat) (st : RegAllocState) (act : List Nat)
      (st2 : RegAllocState) (act2 : List Nat),
      k + fuel = R0.length → LSInv R0 st act k →
      regAllocLoop st act k fuel = some (st2, act2) →
      LSInv R0 st2 act2 R0.length := by
  intro fuel
  induction fuel with
  | zero =>
    intro k st act st2 act2 hkf hinv hloop
    simp only [regAllocLoop] at hloop
    rw [Option.some.injEq, Prod.mk.injEq] at hloop
    obtain ⟨h1, h2⟩ := hloop
    subst h1
    subst h2
    have hke : k = R0.length := by omega
    rwa [hke] at hinv
  | succ n ih =>
    intro k st act st2 act2 hkf hinv hloop
    simp only [regAllocLoop] at hloop
    rcases hs : regAllocStep st act k with _ | p
    · rw [hs] at hloop
      exact absurd hloop (by simp)
    · obtain ⟨stM, actM⟩ := p
      rw [hs] at hloop
      dsimp only at hloop
      exact ih (k + 1) stM actM st2 act2 (by omega)
        (step_inv R0 hsorted st act k (by omega) hinv stM actM hs) hloop

/-- C5: after a completing linear-scan run, no physical register is shared
by two overlapping live ranges of the same class.  The run starts from a
state whose ranges are sorted by start point (regAllocComputeRanges sorts
them) and whose three free-register pools have their fixed sizes (6 GP
scratch, 6 FP scratch, 4 FP saved, as regAllocInit builds them); if
regAllocRun completes -- the model returns none exactly on the paths where
the C code dereferences NULL in the spill-steal bookkeeping or writes
ssa_to_reg out of bounds -- then any two distinct live ranges that both
ended up in registers (not spilled), have the same register class, and
have intersecting [start, end] intervals were given distinct registers. -/
theorem c5_linear_scan_no_overlapping_register_reuse
    (st0 stF : RegAllocState)
    (hsorted : st0.ranges.Pairwise (fun a b => a.start ≤ b.start))
    (hgp : st0.gp_scratch_free.length = GP_SCRATCH_COUNT)
    (hfs : st0.fp_scratch_free.length = FP_SCRATCH_COUNT)
    (hfv : st0.fp_saved_free.length = FP_SAVED_COUNT)
    (hrun : regAllocRun st0 = some stF) :
    ∀ p q, p < stF.ranges.length → q < stF.ranges.length → p ≠ q →
      (stF.ranges.getD p {}).alloc.is_spill = false →
      (stF.ranges.getD q {}).alloc.is_spill = false →
      (stF.ranges.getD p {}).reg_class = (stF.ranges.getD q {}).reg_class →
      rangesOverlap (stF.ranges.getD p {}) (stF.ranges.getD q {}) →
      (stF.ranges.getD p {}).alloc.loc.regVal
        ≠ (stF.ranges.getD q {}).alloc.loc.regVal := by
  simp only [regAllocRun] at hrun
  rcases hl : regAllocLoop st0 [] 0 st0.ranges.length with _ | p2
  · rw [hl] at hrun
    exact absurd hrun (by simp)
  · obtain ⟨stL, actL⟩ := p2
    rw [hl] at hrun
    simp only [Option.map_some'] at hrun
    rw [Option.some.injEq] at hrun
    have hinv0 : LSInv st0.ranges st0 [] 0 :=
      { len_eq := rfl
        gp_len := hgp
        fps_len := hfs
        fpv_len := hfv
        shape := fun p => ⟨rfl, rfl, rfl⟩
        act_lt := fun p hp => absurd hp (List.not_mem_nil p)
        act_nodup := List.nodup_nil
        act_nonspill := fun p hp => absurd hp (List.not_mem_nil p)
        act_class := fun p hp => absurd hp (List.not_mem_nil p)
        coverage := fun p hp _ => absurd hp (by omega)
        free_gp := fun r _ => by
          rintro ⟨x, hx, -, -⟩
          exact List.not_mem_nil x hx
        free_fps := fun j _ => by
          rintro ⟨x, hx, -, -⟩
          exact List.not_mem_nil x hx
        free_fpv := fun j _ => by
          rintro ⟨x, hx, -, -⟩
          exact List.not_mem_nil x hx
        uniq := fun p hp => absurd hp (List.not_mem_nil p)
        safety := fun p hp _ _ _ => absurd hp (by omega) }
    have hfin := loop_inv st0.ranges hsorted st0.ranges.length 0 st0 []
      stL actL (by omega) hinv0 hl
    subst hrun
    intro p q hp hq hne hsp hsq hcls hov
    have hlen := hfin.len_eq
    exact hfin.safety p (by omega) q (by omega) hne hsp hsq hcls hov

theorem c5_linear_scan_no_overlapping_register_reuse_witness :
    (((regAllocRun c5State).getD {}).ranges.getD 0 {}).alloc.loc.regVal ≠
      (((regAllocRun c5State).getD {}).ranges.getD 1 {}).alloc.loc.regVal :=
  c5_linear_scan_no_overlapping_register_reuse c5State
    ((regAllocRun c5State).getD {}) (by decide) rfl rfl rfl (by decide)
    0 1 (by decide) (by decide) (by decide) (by decide) (by decide)
    (by decide) ⟨by decide, by decide⟩
